import Mathlib

set_option linter.unusedVariables false
set_option linter.unnecessarySeqFocus false

/-!
# Verification of the go-asten profiling library core

Shallow embedding of the go-asten repository (package `asten`): the
profile/group tree, its cached statistics with invalidation, the builder,
timer path resolution, and the snapshot copy.

Modelling conventions:
* `uint64` counters and durations are modelled as `Nat`.  Go's unsigned
  integer division is `Nat` division.  The one `uint64` division whose
  divisor is reachable as zero in the embedded operations
  (`s.meanTime = s.effectiveTime / s.nsamples` in the composite branch of
  `profileStats.update`, statistics.go:203) is modelled with `Option`,
  `none` standing for Go's integer-divide-by-zero panic.
* `float64` quotients (`timeslice`, `taken`) are modelled as `Option ℚ`:
  `some q` is the exact finite quotient, `none` stands for a non-finite
  result (Go yields NaN or ±Inf when the divisor converts to `0.0`; it
  does not panic).
* Go maps of sub-profiles are modelled as lists of children looked up by
  name; the aggregate sums folded over them are order-independent.
* Mutexes, logging and the parent back-pointers are not part of the
  functional state; the upward `invalidate` walk of statistics.go:145-152
  is reproduced by marking every node that the timer-registration
  recursion descends through (exactly the ancestors of the registering
  leaf inside the subtree where the timer was stopped).  The group's own
  stats record is not touched by that walk, mirroring the fact that
  `profileStats.invalidate` stops at `profile.parent == nil`.
-/

/-- A recorded measurement, statistics.go:228-235.  Go stores two
`time.Time` instants; we model them as nanosecond counts with
`stop ≥ start` in every reachable state. -/
structure GoSample where
  start : Nat
  stop : Nat
  deriving Repr, DecidableEq

/-- `sample.getDurationNano`, statistics.go:237-239. -/
def GoSample.dur (s : GoSample) : Nat := s.stop - s.start

/-- `float64(a) / float64(b)` as used for `timeslice`/`taken`
(statistics.go:67-68, 207-208): exact rational when the divisor is
nonzero, `none` (NaN/Inf, not a panic) when it is zero. -/
def fdiv (a b : Nat) : Option ℚ := if b = 0 then none else some ((a : ℚ) / (b : ℚ))

/-- The mutable fields of `profileStats`, statistics.go:83-96. -/
structure ProfileStats where
  valid : Bool
  totalTime : Nat
  effectiveTime : Nat
  meanTime : Nat
  nsamples : Nat
  timeslice : Option ℚ
  taken : Option ℚ
  samples : List GoSample
  deriving Repr, DecidableEq

/-- `newProfileStats`, statistics.go:98-111: note `valid` starts `true`
and `taken`/`samples` take their zero values. -/
def freshProfileStats : ProfileStats :=
  { valid := true, totalTime := 0, effectiveTime := 0, meanTime := 0,
    nsamples := 0, timeslice := some 0, taken := some 0, samples := [] }

/-- The mutable fields of `groupStats`, statistics.go:12-20. -/
structure GroupStats where
  valid : Bool
  totalTime : Nat
  effectiveTime : Nat
  nsamples : Nat
  deriving Repr, DecidableEq

/-- `newGroupStats`, statistics.go:22-33: `valid` starts `false`. -/
def freshGroupStats : GroupStats :=
  { valid := false, totalTime := 0, effectiveTime := 0, nsamples := 0 }

/-- The configuration fields of `ProfileBuilder`, profile.go:451-457
(the parent group/profile pointers are ownership wiring, not
configuration, and are represented by where the builder is stored). -/
structure BuilderCfg where
  composite : Bool
  memory : Bool
  nThreads : Nat
  deriving Repr, DecidableEq

/-- `NewProfileBuilder`, profile.go:484-492. -/
def defaultBuilderCfg : BuilderCfg := { composite := false, memory := false, nThreads := 1 }

/-- Thread-count clamping of `ProfileBuilder.WithNThreads`,
profile.go:607-619 (`n` is `uint64`, so `n <= 0` means `n = 0`). -/
def withNThreads (cores n : Nat) : Nat :=
  let n1 := if n ≤ 0 then 1 else n
  if n1 > cores then cores else n1

/-- `ProfileBuilder.WithNCores`, profile.go:623-631: only the zero
fallback, no clamping against the core count. -/
def withNCores (n : Nat) : Nat :=
  if n ≤ 0 then 1 else n

/-- `profileStats.registerSample`, statistics.go:212-226.  The
`invalidate()` call on the stats' own record is the `valid := false`;
the walk up the ancestor chain is modelled at the tree level.  In the
memoryless branch the record is re-validated before returning. -/
def registerSampleStats (st : ProfileStats) (memory : Bool) (nThreads : Nat)
    (smp : GoSample) : ProfileStats :=
  let st1 := { st with valid := false }
  if memory then
    { st1 with samples := st1.samples ++ [smp], nsamples := st1.nsamples + 1 }
  else
    let d := smp.dur
    let n := st1.nsamples + 1
    let eff := st1.effectiveTime + d / nThreads
    { st1 with
      valid := true, nsamples := n, totalTime := st1.totalTime + d,
      effectiveTime := eff, meanTime := eff / n }

/-- The non-composite, memory-retaining branch of `profileStats.update`,
statistics.go:170-190 (entered only when the record is invalid; the
caller has already set `valid := true`, statistics.go:159). -/
def updateLeafMemoryStats (nThreads : Nat) (st : ProfileStats) : ProfileStats :=
  let ns := st.samples.length
  if ns = 0 then
    { st with
      valid := true, totalTime := 0, effectiveTime := 0,
      nsamples := 0, meanTime := 0, timeslice := some 0 }
  else
    let total := st.samples.foldl (fun a s => a + s.dur) 0
    let eff := if ns < nThreads then total / ns else total / nThreads
    { st with
      valid := true, totalTime := total, effectiveTime := eff,
      nsamples := ns, meanTime := eff / ns }

/-- A `ProfileSt` tree node, profile.go:32-45.  `children` models the
`subProfiles` map (`nil` for a non-composite profile ~ the empty list);
`builder` models the configuration of the node's own `ProfileBuilder`. -/
inductive ProfileTree : Type where
  | node (name : String) (composite : Bool) (memory : Bool) (nThreads : Nat)
      (builder : BuilderCfg) (stats : ProfileStats)
      (children : List ProfileTree) : ProfileTree

def ProfileTree.name : ProfileTree → String
  | .node n _ _ _ _ _ _ => n

def ProfileTree.composite : ProfileTree → Bool
  | .node _ c _ _ _ _ _ => c

def ProfileTree.memory : ProfileTree → Bool
  | .node _ _ m _ _ _ _ => m

def ProfileTree.nThreads : ProfileTree → Nat
  | .node _ _ _ k _ _ _ => k

def ProfileTree.builder : ProfileTree → BuilderCfg
  | .node _ _ _ _ b _ _ => b

def ProfileTree.stats : ProfileTree → ProfileStats
  | .node _ _ _ _ _ st _ => st

def ProfileTree.children : ProfileTree → List ProfileTree
  | .node _ _ _ _ _ _ ch => ch

def ProfileTree.withStats (st : ProfileStats) : ProfileTree → ProfileTree
  | .node n c m k b _ ch => .node n c m k b st ch

/-- Mark a node's own stats record invalid; one step of
`profileStats.invalidate`, statistics.go:145-152. -/
def ProfileTree.markInvalid (t : ProfileTree) : ProfileTree :=
  t.withStats { t.stats with valid := false }

/-- Lookup in a `subProfiles` map, e.g. profile.go:52. -/
def findChild (ch : List ProfileTree) (n : String) : Option ProfileTree :=
  ch.find? (fun t => t.name = n)

/-- In-place mutation of the child named `n` (in Go the recursion mutates
the child through its pointer inside the parent's map). -/
def replaceChild (ch : List ProfileTree) (n : String) (t : ProfileTree) :
    List ProfileTree :=
  ch.map (fun q => if q.name = n then t else q)

/-- `ProfileBuilder.NewProfile`, profile.go:500-528: the new profile takes
the builder's flags and its own builder is a copy with the composite flag
reset (`pb.Copy().RemoveComposition()`, profile.go:510). -/
def newProfileFromBuilder (cfg : BuilderCfg) (n : String) : ProfileTree :=
  .node n cfg.composite cfg.memory cfg.nThreads
    { cfg with composite := false } freshProfileStats []

/-- `ProfileSt.unsafeMakeComposite`, profile.go:104-113 (also the body of
the public `MakeComposite`, profile.go:88-102): idempotent; converting a
leaf discards its stats record for a fresh one and installs an empty
child map. -/
def makeCompositeNode (t : ProfileTree) : ProfileTree :=
  if t.composite then t
  else .node t.name true t.memory t.nThreads t.builder freshProfileStats []

/-- Register one more child at the end of the child map. -/
def ProfileTree.addChild : ProfileTree → ProfileTree → ProfileTree
  | .node n c m k b st ch, sp => .node n c m k b st (ch ++ [sp])

/-- `ProfileSt.addProfile`, profile.go:63-84: converts the parent if it
is not composite, then either returns the already-registered child of
the same name (discarding `sp`) or registers `sp`. -/
def addProfileP (p : ProfileTree) (sp : ProfileTree) :
    ProfileTree × ProfileTree :=
  let p1 := makeCompositeNode p
  match findChild p1.children sp.name with
  | some tmp => (p1, tmp)
  | none => (p1.addChild sp, sp)

/-- `ProfileSt.Profile`, profile.go:50-61: get-or-create through the
node's builder (`p.builder.NewProfile` ends in `addProfile`). -/
def profileGetOrCreate (p : ProfileTree) (n : String) :
    ProfileTree × ProfileTree :=
  match findChild p.children n with
  | some sp => (p, sp)
  | none => addProfileP p (newProfileFromBuilder p.builder n)

/-- Apply `registerSample` to a leaf node's stats record. -/
def registerSampleNode (t : ProfileTree) (smp : GoSample) : ProfileTree :=
  t.withStats (registerSampleStats t.stats t.memory t.nThreads smp)

def ProfileTree.withChildren (ch : List ProfileTree) : ProfileTree → ProfileTree
  | .node n c m k b st _ => .node n c m k b st ch

/-- The composite branch of `profileStats.update`, statistics.go:193-210:
sums the children's aggregates — resetting `totalTime` and
`effectiveTime` but, unlike `groupStats.update`, **not** `nsamples`
(statistics.go:193-194 vs 54-56) — then divides.  `none` models the Go
runtime panic of the `uint64` division `s.effectiveTime / s.nsamples`
when the accumulated sample count is zero (statistics.go:203). -/
def updateCompositeStats (st : ProfileStats) (ch : List ProfileTree) :
    Option (ProfileStats × List ProfileTree) :=
  let total := ch.foldl (fun a q => a + q.stats.totalTime) 0
  let eff := ch.foldl (fun a q => a + q.stats.effectiveTime) 0
  let n := ch.foldl (fun a q => a + q.stats.nsamples) st.nsamples
  if n = 0 then none
  else
    some ({ st with
            valid := true, totalTime := total, effectiveTime := eff,
            nsamples := n, meanTime := eff / n },
      ch.map (fun q => q.withStats { q.stats with
        timeslice := fdiv q.stats.effectiveTime eff,
        taken := fdiv q.stats.nsamples n }))

mutual

/-- `ProfileSt.update`, profile.go:427-433, combined with
`profileStats.update`, statistics.go:154-210: children first (always),
then the node's own record if it is invalid.  The non-composite
memoryless branch (statistics.go:161-168) logs an error and returns with
the already-assigned `valid := true` and otherwise unchanged fields. -/
def updateProfile : ProfileTree → Option ProfileTree
  | .node n c m k b st ch => do
      let ch2 ← updateChildren ch
      if st.valid then
        some (.node n c m k b st ch2)
      else if c = false then
        if m = false then
          some (.node n c m k b { st with valid := true } ch2)
        else
          some (.node n c m k b (updateLeafMemoryStats k st) ch2)
      else
        match updateCompositeStats st ch2 with
        | none => none
        | some (st2, ch3) => some (.node n c m k b st2 ch3)

def updateChildren : List ProfileTree → Option (List ProfileTree)
  | [] => some []
  | t :: ts => do
      let t2 ← updateProfile t
      let ts2 ← updateChildren ts
      some (t2 :: ts2)

end

/-- A `GroupSt`, part_002 (group source) lines 28-35. -/
structure GroupTree where
  name : String
  stats : GroupStats
  builder : BuilderCfg
  profiles : List ProfileTree

/-- `newGroup`, part_002 lines 55-79: fresh (invalid) group stats and a
default builder. -/
def freshGroup (n : String) : GroupTree :=
  { name := n, stats := freshGroupStats, builder := defaultBuilderCfg, profiles := [] }

/-- `groupStats.update`, statistics.go:47-70: this one resets all three
aggregates, including `nsamples`, before summing; there is no `meanTime`
and hence no integer division. -/
def updateGroupStats (gs : GroupStats) (ps : List ProfileTree) :
    GroupStats × List ProfileTree :=
  if gs.valid then (gs, ps)
  else
    let total := ps.foldl (fun a q => a + q.stats.totalTime) 0
    let eff := ps.foldl (fun a q => a + q.stats.effectiveTime) 0
    let n := ps.foldl (fun a q => a + q.stats.nsamples) 0
    ({ valid := true, totalTime := total, effectiveTime := eff, nsamples := n },
      ps.map (fun q => q.withStats { q.stats with
        timeslice := fdiv q.stats.effectiveTime eff,
        taken := fdiv q.stats.nsamples n }))

/-- `GroupSt.update`, part_002 lines 286-291. -/
def updateGroup (g : GroupTree) : Option GroupTree := do
  let ps ← updateChildren g.profiles
  let r := updateGroupStats g.stats ps
  some { g with stats := r.1, profiles := r.2 }

/-- `GroupSt.addProfile`, part_002 lines 107-119: first registrant wins,
the duplicate is discarded; a registered top-level profile has
`parent = nil` (which is why `profileStats.invalidate` never reaches the
group's stats record). -/
def addProfileG (g : GroupTree) (p : ProfileTree) : GroupTree × ProfileTree :=
  match findChild g.profiles p.name with
  | some tmp => (g, tmp)
  | none => ({ g with profiles := g.profiles ++ [p] }, p)

/-- `GroupSt.Profile`, part_002 lines 84-97. -/
def groupGetOrCreate (g : GroupTree) (n : String) : GroupTree × ProfileTree :=
  match findChild g.profiles n with
  | some p => (g, p)
  | none => addProfileG g (newProfileFromBuilder g.builder n)

/-- The fate of a timer handed to a freshly created child with condition
list `[dflt]` (the tail of `ProfileSt.registerTimer`'s recursion,
profile.go:153-192, unfolded once): if the builder stamps composite
children the fresh child is composite, so the recursion descends once
more to a default-named grandchild — whose builder has the composite
flag reset, so it is a leaf and takes the sample; otherwise the fresh
child is itself the leaf. -/
def registerFresh (dflt : String) (cfg : BuilderCfg) (cname : String)
    (smp : GoSample) : ProfileTree :=
  let child := newProfileFromBuilder cfg cname
  if cfg.composite then
    let grand := registerSampleNode (newProfileFromBuilder child.builder dflt) smp
    (child.addChild grand).markInvalid
  else
    registerSampleNode child smp

/-- `ProfileSt.registerTimer`, profile.go:153-192, acting on the subtree
rooted at the profile that started the timer.  Each node the recursion
descends through is an ancestor of the registering leaf, so its stats
record is marked invalid (this reproduces the upward
`profileStats.invalidate` walk, statistics.go:145-152, which stops at
the top-level profile). -/
def registerTimerP (dflt : String) (p : ProfileTree) (conds : List String)
    (smp : GoSample) : ProfileTree :=
  match conds with
  | [] => p
  | c :: c2 :: rest =>
      match h : findChild p.children c with
      | some q =>
          (p.withChildren
            (replaceChild p.children c
              (registerTimerP dflt q (c2 :: rest) smp))).markInvalid
      | none =>
          let p1 := makeCompositeNode p
          (p1.addChild
            (registerTimerP dflt (newProfileFromBuilder p.builder c)
              (c2 :: rest) smp)).markInvalid
  | [c] =>
      if p.composite then
        match h : findChild p.children c with
        | some q =>
            (p.withChildren
              (replaceChild p.children c
                (registerTimerP dflt q [dflt] smp))).markInvalid
        | none =>
            (p.addChild (registerFresh dflt p.builder c smp)).markInvalid
      else
        if c = dflt then registerSampleNode p smp
        else
          let p1 := makeCompositeNode p
          (p1.addChild (registerFresh dflt p1.builder c smp)).markInvalid
termination_by (conds.length, sizeOf p)
decreasing_by
  · simp only [List.length_cons]
    exact Prod.Lex.left _ _ (by omega)
  · simp only [List.length_cons]
    exact Prod.Lex.left _ _ (by omega)
  · refine Prod.Lex.right _ ?_
    have hq : q ∈ p.children := by
      simpa [findChild] using List.mem_of_find?_eq_some h
    cases p with
    | node n c m k b st ch =>
      have h1 : sizeOf q < sizeOf ch :=
        List.sizeOf_lt_of_mem (by simpa [ProfileTree.children] using hq)
      simp only [ProfileTree.node.sizeOf_spec]
      omega


/-- Stopping a timer bound to the top-level profile named `pname` of a
group: the stop mutates only the subtree of the bound profile
(`Timer.StopAs` hands the timer to `t.profile.registerTimer`,
statistics.go:290-294); the group object itself is not involved, and in
particular `profileStats.invalidate` never reaches the group's stats
record because a top-level profile has `parent = nil`
(part_002 line 115). -/
def registerInGroup (dflt : String) (g : GroupTree) (pname : String)
    (conds : List String) (smp : GoSample) : GroupTree :=
  { g with
    profiles := g.profiles.map (fun q =>
      if q.name = pname then registerTimerP dflt q conds smp else q) }

/-- `ProfileSt.registerTimer` reached through `Timer.Stop`,
statistics.go:261-265: the condition list is the singleton default name. -/
def stopTimerDefault (dflt : String) (p : ProfileTree) (smp : GoSample) :
    ProfileTree :=
  registerTimerP dflt p [dflt] smp

mutual

/-- Every stats record in the subtree is valid. -/
def allValidB : ProfileTree → Bool
  | .node _ _ _ _ _ st ch => st.valid && allValidListB ch

def allValidListB : List ProfileTree → Bool
  | [] => true
  | t :: ts => allValidB t && allValidListB ts

end

mutual

/-- Every non-composite memoryless node in the subtree has a valid stats
record (the invariant behind the error branch of `profileStats.update`,
statistics.go:161-168). -/
def mlValidB : ProfileTree → Bool
  | .node _ c m _ _ st ch => (c || m || st.valid) && mlValidListB ch

def mlValidListB : List ProfileTree → Bool
  | [] => true
  | t :: ts => mlValidB t && mlValidListB ts

end

mutual

/-- Well-formedness maintained by the library: a non-composite profile
has a `nil` sub-profile map (profile.go:40, set only on conversion). -/
def wfB : ProfileTree → Bool
  | .node _ c _ _ _ _ ch => (c || ch.isEmpty) && wfListB ch

def wfListB : List ProfileTree → Bool
  | [] => true
  | t :: ts => wfB t && wfListB ts

end

mutual

/-- Mirrors the update pass, returning whether any node in the subtree
enters the error branch of `profileStats.update`
("invalid profile statistics state", statistics.go:161-168): a node
enters it exactly when its record is invalid, non-composite and
memoryless when its own update runs (nothing the pass does beforehand
changes those three fields of a node not yet updated). -/
def updateHitsErrorB : ProfileTree → Bool
  | .node _ c m _ _ st ch =>
      updateHitsErrorListB ch || (!st.valid && !c && !m)

def updateHitsErrorListB : List ProfileTree → Bool
  | [] => false
  | t :: ts => updateHitsErrorB t || updateHitsErrorListB ts

end

/-- `profileStats.copy`, statistics.go:128-143: a field-by-field copy;
the `samples` slice header is copied by value (the backing array is
shared, see the slice model below). -/
def copyStats (st : ProfileStats) : ProfileStats :=
  { valid := st.valid, totalTime := st.totalTime,
    effectiveTime := st.effectiveTime, meanTime := st.meanTime,
    nsamples := st.nsamples, timeslice := st.timeslice,
    taken := st.taken, samples := st.samples }

mutual

/-- `ProfileSt.copy`, profile.go:363-387: copies the observable fields
and, for a composite profile, the children recursively (a non-composite
profile has no children to copy). -/
def copyTree : ProfileTree → ProfileTree
  | .node n c m k b st ch =>
      .node n c m k b (copyStats st) (if c then copyTreeList ch else ch)

def copyTreeList : List ProfileTree → List ProfileTree
  | [] => []
  | t :: ts => copyTree t :: copyTreeList ts

end

/-- A Go slice header of samples: an index into the heap of backing
arrays plus a length.  `profileStats.samples` is such a header, and
`profileStats.copy` duplicates the header, not the array. -/
structure GoSlice where
  arr : Nat
  len : Nat
  deriving Repr, DecidableEq

/-- The process heap restricted to sample backing arrays: `arrays[i]` is
the full backing array (its length is the slice capacity). -/
structure SampleHeap where
  arrays : List (List GoSample)

/-- The elements a slice header denotes: the first `len` cells of its
backing array. -/
def sliceView (h : SampleHeap) (s : GoSlice) : List GoSample :=
  (h.arrays.getD s.arr []).take s.len

/-- Go's `append(s, x)` as performed by `registerSample`
(statistics.go:215): if spare capacity remains, write `x` into the
shared backing array at index `len`; otherwise allocate a fresh, larger
backing array holding the old elements and `x` (the amount of extra
capacity is an implementation detail of the runtime). -/
def goAppend (h : SampleHeap) (s : GoSlice) (x : GoSample) :
    SampleHeap × GoSlice :=
  let backing := h.arrays.getD s.arr []
  if s.len < backing.length then
    ({ arrays := h.arrays.set s.arr (backing.set s.len x) },
      { arr := s.arr, len := s.len + 1 })
  else
    ({ arrays := h.arrays ++ [backing.take s.len ++ [x] ++ List.replicate (s.len + 1) x] },
      { arr := h.arrays.length, len := s.len + 1 })

/-- Fold a batch of sample registrations into a stats record (the effect
of stopping a sequence of timers on one leaf profile). -/
def registerAll (memory : Bool) (k : Nat) (ds : List GoSample)
    (st : ProfileStats) : ProfileStats :=
  ds.foldl (fun a s => registerSampleStats a memory k s) st

/-- A freshly converted composite top-level profile `P` created through
the default builder (`Profile("P").MakeComposite()`). -/
def c1P0 : ProfileTree :=
  makeCompositeNode (newProfileFromBuilder defaultBuilderCfg "P")

/-- `c1P0` after one 5 ns sample lands in its (freshly created)
memoryless leaf child `c`. -/
def c1T1 : ProfileTree :=
  .node "P" true false 1 defaultBuilderCfg
    { freshProfileStats with valid := false }
    [.node "c" false false 1 defaultBuilderCfg
      { freshProfileStats with
        totalTime := 5, effectiveTime := 5, meanTime := 5, nsamples := 1 } []]

/-- `c1T1` after the first update pass. -/
def c1T2 : ProfileTree :=
  .node "P" true false 1 defaultBuilderCfg
    { freshProfileStats with
      totalTime := 5, effectiveTime := 5, meanTime := 5, nsamples := 1 }
    [.node "c" false false 1 defaultBuilderCfg
      { freshProfileStats with
        totalTime := 5, effectiveTime := 5, meanTime := 5, nsamples := 1,
        timeslice := some 1, taken := some 1 } []]

/-- `c1T2` after a second 5 ns sample lands in `c`. -/
def c1T3 : ProfileTree :=
  .node "P" true false 1 defaultBuilderCfg
    { freshProfileStats with
      valid := false, totalTime := 5, effectiveTime := 5, meanTime := 5,
      nsamples := 1 }
    [.node "c" false false 1 defaultBuilderCfg
      { freshProfileStats with
        totalTime := 10, effectiveTime := 10, meanTime := 5, nsamples := 2,
        timeslice := some 1, taken := some 1 } []]

/-- `c1T3` after the second update pass: the composite's `nsamples` is 3
(the stale 1 plus the children's 2) because the composite branch of
`profileStats.update` never resets it. -/
def c1T4 : ProfileTree :=
  .node "P" true false 1 defaultBuilderCfg
    { freshProfileStats with
      totalTime := 10, effectiveTime := 10, meanTime := 3, nsamples := 3 }
    [.node "c" false false 1 defaultBuilderCfg
      { freshProfileStats with
        totalTime := 10, effectiveTime := 10, meanTime := 5, nsamples := 2,
        timeslice := some 1, taken := some (2 / 3 : ℚ) } []]

/-- A memoryless leaf with two configured threads holding one 10 ns
sample, registered incrementally. -/
def c2Leaf : ProfileTree :=
  .node "q" false false 2 defaultBuilderCfg
    (registerSampleStats freshProfileStats false 2 ⟨0, 10⟩) []

/-- Group `G` holding one memoryless top-level leaf profile `p`, as
built by `Group("G").Profile("p")`. -/
def c3G0 : GroupTree := (groupGetOrCreate (freshGroup "G") "p").1

/-- `c3G0` after one update pass (note the `fdiv 0 0` ratios of the
sampleless profile come out non-finite). -/
def c3G1 : GroupTree :=
  { name := "G",
    stats := { valid := true, totalTime := 0, effectiveTime := 0, nsamples := 0 },
    builder := defaultBuilderCfg,
    profiles := [.node "p" false false 1 defaultBuilderCfg
      { freshProfileStats with timeslice := none, taken := none } []] }

/-- `c3G1` after a 5 ns sample is registered on `p` through a stopped
timer: the leaf's record is re-validated by the memoryless registration
and the group's record is still the one the update pass validated. -/
def c3G2 : GroupTree :=
  { name := "G",
    stats := { valid := true, totalTime := 0, effectiveTime := 0, nsamples := 0 },
    builder := defaultBuilderCfg,
    profiles := [.node "p" false false 1 defaultBuilderCfg
      { freshProfileStats with
        totalTime := 5, effectiveTime := 5, meanTime := 5, nsamples := 1,
        timeslice := none, taken := none } []] }

/-- The composite `P` of `c1P0` after a 5 ns sample lands in its fresh
leaf child `L` and `L` is then converted to composite by
`MakeComposite` (discarding `L`'s sample and aggregate): `P` is still
invalid, but the sum of its children's sample counts is back to zero. -/
def c5T2 : ProfileTree :=
  .node "P" true false 1 defaultBuilderCfg
    { freshProfileStats with valid := false }
    [.node "L" true false 1 defaultBuilderCfg freshProfileStats []]

@[simp]
theorem ProfileTree.name_withStats (st : ProfileStats) (t : ProfileTree) :
    (t.withStats st).name = t.name := by cases t <;> rfl

@[simp]
theorem ProfileTree.composite_withStats (st : ProfileStats) (t : ProfileTree) :
    (t.withStats st).composite = t.composite := by cases t <;> rfl

@[simp]
theorem ProfileTree.memory_withStats (st : ProfileStats) (t : ProfileTree) :
    (t.withStats st).memory = t.memory := by cases t <;> rfl

@[simp]
theorem ProfileTree.nThreads_withStats (st : ProfileStats) (t : ProfileTree) :
    (t.withStats st).nThreads = t.nThreads := by cases t <;> rfl

@[simp]
theorem ProfileTree.builder_withStats (st : ProfileStats) (t : ProfileTree) :
    (t.withStats st).builder = t.builder := by cases t <;> rfl

@[simp]
theorem ProfileTree.stats_withStats (st : ProfileStats) (t : ProfileTree) :
    (t.withStats st).stats = st := by cases t <;> rfl

@[simp]
theorem ProfileTree.children_withStats (st : ProfileStats) (t : ProfileTree) :
    (t.withStats st).children = t.children := by cases t <;> rfl

@[simp]
theorem ProfileTree.name_addChild (t q : ProfileTree) :
    (t.addChild q).name = t.name := by cases t <;> rfl

@[simp]
theorem ProfileTree.composite_addChild (t q : ProfileTree) :
    (t.addChild q).composite = t.composite := by cases t <;> rfl

@[simp]
theorem ProfileTree.memory_addChild (t q : ProfileTree) :
    (t.addChild q).memory = t.memory := by cases t <;> rfl

@[simp]
theorem ProfileTree.nThreads_addChild (t q : ProfileTree) :
    (t.addChild q).nThreads = t.nThreads := by cases t <;> rfl

@[simp]
theorem ProfileTree.builder_addChild (t q : ProfileTree) :
    (t.addChild q).builder = t.builder := by cases t <;> rfl

@[simp]
theorem ProfileTree.stats_addChild (t q : ProfileTree) :
    (t.addChild q).stats = t.stats := by cases t <;> rfl

@[simp]
theorem ProfileTree.children_addChild (t q : ProfileTree) :
    (t.addChild q).children = t.children ++ [q] := by cases t <;> rfl

@[simp]
theorem ProfileTree.name_withChildren (ch : List ProfileTree) (t : ProfileTree) :
    (t.withChildren ch).name = t.name := by cases t <;> rfl

@[simp]
theorem ProfileTree.composite_withChildren (ch : List ProfileTree) (t : ProfileTree) :
    (t.withChildren ch).composite = t.composite := by cases t <;> rfl

@[simp]
theorem ProfileTree.memory_withChildren (ch : List ProfileTree) (t : ProfileTree) :
    (t.withChildren ch).memory = t.memory := by cases t <;> rfl

@[simp]
theorem ProfileTree.nThreads_withChildren (ch : List ProfileTree) (t : ProfileTree) :
    (t.withChildren ch).nThreads = t.nThreads := by cases t <;> rfl

@[simp]
theorem ProfileTree.builder_withChildren (ch : List ProfileTree) (t : ProfileTree) :
    (t.withChildren ch).builder = t.builder := by cases t <;> rfl

@[simp]
theorem ProfileTree.stats_withChildren (ch : List ProfileTree) (t : ProfileTree) :
    (t.withChildren ch).stats = t.stats := by cases t <;> rfl

@[simp]
theorem ProfileTree.children_withChildren (ch : List ProfileTree) (t : ProfileTree) :
    (t.withChildren ch).children = ch := by cases t <;> rfl

@[simp]
theorem ProfileTree.stats_markInvalid (t : ProfileTree) :
    t.markInvalid.stats = { t.stats with valid := false } := by
  simp [ProfileTree.markInvalid]

@[simp]
theorem ProfileTree.composite_markInvalid (t : ProfileTree) :
    t.markInvalid.composite = t.composite := by
  simp [ProfileTree.markInvalid]

@[simp]
theorem ProfileTree.children_markInvalid (t : ProfileTree) :
    t.markInvalid.children = t.children := by
  simp [ProfileTree.markInvalid]

@[simp]
theorem ProfileTree.memory_markInvalid (t : ProfileTree) :
    t.markInvalid.memory = t.memory := by
  simp [ProfileTree.markInvalid]

@[simp]
theorem ProfileTree.name_markInvalid (t : ProfileTree) :
    t.markInvalid.name = t.name := by
  simp [ProfileTree.markInvalid]

@[simp]
theorem name_newProfileFromBuilder (cfg : BuilderCfg) (n : String) :
    (newProfileFromBuilder cfg n).name = n := rfl

@[simp]
theorem composite_makeCompositeNode (t : ProfileTree) :
    (makeCompositeNode t).composite = true := by
  cases t with
  | node n c m k b st ch =>
    cases c <;> simp [makeCompositeNode, ProfileTree.composite]

theorem makeCompositeNode_of_composite {t : ProfileTree}
    (h : t.composite = true) : makeCompositeNode t = t := by
  simp [makeCompositeNode, h]

@[simp]
theorem children_makeCompositeNode_of_composite {t : ProfileTree}
    (h : t.composite = true) : (makeCompositeNode t).children = t.children := by
  simp [makeCompositeNode_of_composite h]

theorem children_makeCompositeNode_of_leaf {t : ProfileTree}
    (h : t.composite = false) : (makeCompositeNode t).children = [] := by
  simp [makeCompositeNode, h, ProfileTree.children]

theorem foldl_add_map {α : Type} (f : α → Nat) (l : List α) (a : Nat) :
    l.foldl (fun x y => x + f y) a = a + (l.map f).sum := by
  induction l generalizing a with
  | nil => simp
  | cons d l ih => simp [ih, Nat.add_assoc]

/-- **C8.** `WithNThreads` keeps the builder's thread count within
`[1, cores]`: a zero request (the only way a `uint64` can be `<= 0`)
falls back to `1`, a request above the core count is clamped to it; the
unclamped variant `WithNCores` applies only the zero fallback and passes
larger values through. -/
theorem withNThreads_clamped (cores n : Nat) (hc : 1 ≤ cores) :
    1 ≤ withNThreads cores n ∧ withNThreads cores n ≤ cores ∧
    withNThreads cores 0 = 1 ∧ (cores < n → withNThreads cores n = cores) ∧
    withNCores 0 = 1 ∧ (1 ≤ n → withNCores n = n) := by
  refine ⟨?_, ?_, ?_, ?_, ?_, ?_⟩ <;>
    (intros; simp only [withNThreads, withNCores]; split_ifs <;> omega)

/-- Witness for `withNThreads_clamped` at `cores = 4`, `n = 9`. -/
theorem withNThreads_clamped_spot :
    1 ≤ 4 ∧
      (1 ≤ withNThreads 4 9 ∧ withNThreads 4 9 ≤ 4 ∧ withNThreads 4 0 = 1 ∧
        (4 < 9 → withNThreads 4 9 = 4) ∧ withNCores 0 = 1 ∧ (1 ≤ 9 → withNCores 9 = 9)) :=
  ⟨by omega, withNThreads_clamped 4 9 (by omega)⟩

theorem registerAll_memory (k : Nat) (ds : List GoSample) (st : ProfileStats) :
    (registerAll true k ds st).samples = st.samples ++ ds ∧
    (registerAll true k ds st).nsamples = st.nsamples + ds.length := by
  induction ds generalizing st with
  | nil => simp [registerAll]
  | cons d ds ih =>
    obtain ⟨h1, h2⟩ := ih (registerSampleStats st true k d)
    simp only [registerAll, List.foldl_cons] at h1 h2 ⊢
    rw [h1, h2]
    simp [registerSampleStats]
    omega

theorem registerAll_memoryless (k : Nat) (ds : List GoSample) (st : ProfileStats) :
    (registerAll false k ds st).totalTime = st.totalTime + (ds.map GoSample.dur).sum ∧
    (registerAll false k ds st).effectiveTime =
      st.effectiveTime + (ds.map fun s => s.dur / k).sum ∧
    (registerAll false k ds st).nsamples = st.nsamples + ds.length ∧
    (registerAll false k ds st).samples = st.samples ∧
    (registerAll false k ds st).meanTime =
      (if ds.isEmpty then st.meanTime else
        (st.effectiveTime + (ds.map fun s => s.dur / k).sum) / (st.nsamples + ds.length)) ∧
    (registerAll false k ds st).valid = (if ds.isEmpty then st.valid else true) := by
  induction ds generalizing st with
  | nil => simp [registerAll]
  | cons d ds ih =>
    obtain ⟨h1, h2, h3, h4, h5, h6⟩ := ih (registerSampleStats st false k d)
    simp only [registerAll, List.foldl_cons] at h1 h2 h3 h4 h5 h6 ⊢
    refine ⟨?_, ?_, ?_, ?_, ?_, ?_⟩
    · rw [h1]; simp [registerSampleStats]; omega
    · rw [h2]; simp [registerSampleStats]; omega
    · rw [h3]; simp [registerSampleStats]; omega
    · rw [h4]; simp [registerSampleStats]
    · rw [h5]
      by_cases hds : ds.isEmpty
      · simp [hds, registerSampleStats, List.isEmpty_iff.mp hds]
      · simp only [hds, if_false, List.isEmpty_cons, if_neg]
        simp [registerSampleStats]
        congr 1 <;> omega
    · rw [h6]
      by_cases hds : ds.isEmpty
      · simp [hds, registerSampleStats, List.isEmpty_iff.mp hds]
      · simp [hds, registerSampleStats]

theorem updateLeafMemoryStats_formulas (k : Nat) (st : ProfileStats) :
    (updateLeafMemoryStats k st).totalTime = (st.samples.map GoSample.dur).sum ∧
    (updateLeafMemoryStats k st).effectiveTime =
      (st.samples.map GoSample.dur).sum / min st.samples.length k ∧
    (updateLeafMemoryStats k st).meanTime =
      (st.samples.map GoSample.dur).sum / min st.samples.length k / st.samples.length := by
  by_cases h0 : st.samples.length = 0
  · have he : st.samples = [] := List.length_eq_zero.mp h0
    simp [updateLeafMemoryStats, he]
  · have hfold := foldl_add_map GoSample.dur st.samples 0
    rcases Nat.lt_or_ge st.samples.length k with hcmp | hcmp
    · rw [Nat.min_eq_left (Nat.le_of_lt hcmp)]
      simp [updateLeafMemoryStats, h0, hfold, hcmp]
    · rw [Nat.min_eq_right hcmp]
      simp [updateLeafMemoryStats, h0, hfold, Nat.not_lt.mpr hcmp]

/-- **C2 (amended).**  A leaf profile with thread count `T = k` that
received samples of durations `d₁..d_N`, after an update pass: in the
sample-retaining (memory) mode the spec formulas hold with integer
division — `totalTime = Σdᵢ`, `effectiveTime = totalTime / min(N,T)`,
`meanTime = effectiveTime / N`; in the memoryless incremental mode
`totalTime = Σdᵢ` and `meanTime = effectiveTime / N` still hold (the
record stays valid, so the update pass leaves it as registration built
it), but `effectiveTime = Σ(dᵢ/T)` — each duration is divided by the
thread count at registration time, with no `min(N,T)` cap. -/
theorem leafStats_formulas (k : Nat) (ds : List GoSample) (hk : 1 ≤ k) :
    ((registerAll true k ds freshProfileStats).samples = ds ∧
      (updateLeafMemoryStats k (registerAll true k ds freshProfileStats)).totalTime =
        (ds.map GoSample.dur).sum ∧
      (updateLeafMemoryStats k (registerAll true k ds freshProfileStats)).effectiveTime =
        (ds.map GoSample.dur).sum / min ds.length k ∧
      (updateLeafMemoryStats k (registerAll true k ds freshProfileStats)).meanTime =
        (ds.map GoSample.dur).sum / min ds.length k / ds.length) ∧
    ((registerAll false k ds freshProfileStats).totalTime = (ds.map GoSample.dur).sum ∧
      (registerAll false k ds freshProfileStats).effectiveTime =
        (ds.map fun s => s.dur / k).sum ∧
      (registerAll false k ds freshProfileStats).nsamples = ds.length ∧
      (registerAll false k ds freshProfileStats).meanTime =
        (ds.map fun s => s.dur / k).sum / ds.length ∧
      (registerAll false k ds freshProfileStats).valid = true) := by
  obtain ⟨hs, hn⟩ := registerAll_memory k ds freshProfileStats
  have hsam : (registerAll true k ds freshProfileStats).samples = ds := by
    simpa [freshProfileStats] using hs
  obtain ⟨m1, m2, m3, m4, m5, m6⟩ := registerAll_memoryless k ds freshProfileStats
  obtain ⟨u1, u2, u3⟩ := updateLeafMemoryStats_formulas k (registerAll true k ds freshProfileStats)
  rw [hsam] at u1 u2 u3
  refine ⟨⟨hsam, u1, u2, u3⟩, ?_, ?_, ?_, ?_, ?_⟩
  · simpa [freshProfileStats] using m1
  · simpa [freshProfileStats] using m2
  · simpa [freshProfileStats] using m3
  · by_cases hds : ds = []
    · subst hds; simp [registerAll, freshProfileStats]
    · rw [m5]; simp [List.isEmpty_iff, hds, freshProfileStats]
  · by_cases hds : ds = []
    · subst hds; simp [registerAll, freshProfileStats]
    · rw [m6]; simp [List.isEmpty_iff, hds]

/-- Witness for `leafStats_formulas` at `T = 2` and durations `[10, 7]`:
total 17, memory-mode effective `17 / 2 = 8`, mean `8 / 2 = 4`;
memoryless effective `10/2 + 7/2 = 8`. -/
theorem leafStats_formulas_spot :
    1 ≤ 2 ∧
      (((registerAll true 2 [⟨0, 10⟩, ⟨0, 7⟩] freshProfileStats).samples =
          [⟨0, 10⟩, ⟨0, 7⟩] ∧
        (updateLeafMemoryStats 2 (registerAll true 2 [⟨0, 10⟩, ⟨0, 7⟩] freshProfileStats)).totalTime =
          (([⟨0, 10⟩, ⟨0, 7⟩] : List GoSample).map GoSample.dur).sum ∧
        (updateLeafMemoryStats 2 (registerAll true 2 [⟨0, 10⟩, ⟨0, 7⟩] freshProfileStats)).effectiveTime =
          (([⟨0, 10⟩, ⟨0, 7⟩] : List GoSample).map GoSample.dur).sum /
            min ([⟨0, 10⟩, ⟨0, 7⟩] : List GoSample).length 2 ∧
        (updateLeafMemoryStats 2 (registerAll true 2 [⟨0, 10⟩, ⟨0, 7⟩] freshProfileStats)).meanTime =
          (([⟨0, 10⟩, ⟨0, 7⟩] : List GoSample).map GoSample.dur).sum /
            min ([⟨0, 10⟩, ⟨0, 7⟩] : List GoSample).length 2 /
            ([⟨0, 10⟩, ⟨0, 7⟩] : List GoSample).length) ∧
      ((registerAll false 2 [⟨0, 10⟩, ⟨0, 7⟩] freshProfileStats).totalTime =
          (([⟨0, 10⟩, ⟨0, 7⟩] : List GoSample).map GoSample.dur).sum ∧
        (registerAll false 2 [⟨0, 10⟩, ⟨0, 7⟩] freshProfileStats).effectiveTime =
          (([⟨0, 10⟩, ⟨0, 7⟩] : List GoSample).map fun s => s.dur / 2).sum ∧
        (registerAll false 2 [⟨0, 10⟩, ⟨0, 7⟩] freshProfileStats).nsamples =
          ([⟨0, 10⟩, ⟨0, 7⟩] : List GoSample).length ∧
        (registerAll false 2 [⟨0, 10⟩, ⟨0, 7⟩] freshProfileStats).meanTime =
          (([⟨0, 10⟩, ⟨0, 7⟩] : List GoSample).map fun s => s.dur / 2).sum /
            ([⟨0, 10⟩, ⟨0, 7⟩] : List GoSample).length ∧
        (registerAll false 2 [⟨0, 10⟩, ⟨0, 7⟩] freshProfileStats).valid = true)) :=
  ⟨by omega, leafStats_formulas 2 [⟨0, 10⟩, ⟨0, 7⟩] (by omega)⟩

/-- **C2 (counterexample).**  On a memoryless leaf with two threads, a
single 10 ns sample yields `effectiveTime = 10/2 = 5`, while the claimed
formula `totalTime / min(sampleCount, threadCount) = 10 / min(1,2)`
yields 10; the update pass (the record is valid) changes nothing. -/
theorem memoryless_effectiveTime_is_not_min_capped :
    updateProfile c2Leaf = some c2Leaf ∧
    c2Leaf.stats.effectiveTime = 5 ∧
    c2Leaf.stats.totalTime = 10 ∧
    c2Leaf.stats.nsamples = 1 ∧
    c2Leaf.nThreads = 2 ∧
    c2Leaf.stats.totalTime / min c2Leaf.stats.nsamples c2Leaf.nThreads = 10 ∧
    (5 : Nat) ≠ 10 := by
  refine ⟨?_, ?_, ?_, ?_, ?_, ?_, by omega⟩ <;>
    simp [c2Leaf, updateProfile, updateChildren, registerSampleStats,
      ProfileTree.stats, ProfileTree.nThreads, freshProfileStats, GoSample.dur]

theorem findChild_append_singleton {ch : List ProfileTree} {n : String}
    {c : ProfileTree} (h : findChild ch n = none) (hc : c.name = n) :
    findChild (ch ++ [c]) n = some c := by
  induction ch with
  | nil => simp [findChild, hc]
  | cons t ts ih =>
    simp only [findChild, List.cons_append, List.find?_cons] at h ⊢
    rcases hd : (decide (t.name = n)) with _ | _
    · simp only [hd] at h ⊢
      exact ih h
    · simp [hd] at h

theorem findChild_of_makeCompositeNode_none {p : ProfileTree} {n : String}
    (h : findChild p.children n = none) :
    findChild (makeCompositeNode p).children n = none := by
  by_cases hc : p.composite = true
  · rwa [makeCompositeNode_of_composite hc]
  · rw [children_makeCompositeNode_of_leaf (by simpa using hc)]
    rfl

/-- **C6.**  `Profile(name)` on a composite profile or a group is
get-or-create: an existing child of that name is returned with the child
map untouched; otherwise exactly one child built by the owning builder
is appended; duplicate registration under an existing name returns the
first registrant and discards the candidate; and two successive calls
return the identical node. -/
theorem getOrCreate_first_registrant_wins :
    (∀ p : ProfileTree, ∀ n c, findChild p.children n = some c →
      profileGetOrCreate p n = (p, c)) ∧
    (∀ p : ProfileTree, ∀ n, p.composite = true → findChild p.children n = none →
      profileGetOrCreate p n =
        (p.addChild (newProfileFromBuilder p.builder n), newProfileFromBuilder p.builder n)) ∧
    (∀ p sp : ProfileTree, ∀ c, p.composite = true → findChild p.children sp.name = some c →
      addProfileP p sp = (p, c)) ∧
    (∀ p : ProfileTree, ∀ n, profileGetOrCreate (profileGetOrCreate p n).1 n =
      ((profileGetOrCreate p n).1, (profileGetOrCreate p n).2)) ∧
    (∀ g : GroupTree, ∀ n c, findChild g.profiles n = some c →
      groupGetOrCreate g n = (g, c)) ∧
    (∀ g : GroupTree, ∀ n, findChild g.profiles n = none →
      groupGetOrCreate g n =
        ({ g with profiles := g.profiles ++ [newProfileFromBuilder g.builder n] },
          newProfileFromBuilder g.builder n)) ∧
    (∀ g : GroupTree, ∀ sp c, findChild g.profiles sp.name = some c →
      addProfileG g sp = (g, c)) ∧
    (∀ g : GroupTree, ∀ n, groupGetOrCreate (groupGetOrCreate g n).1 n =
      ((groupGetOrCreate g n).1, (groupGetOrCreate g n).2)) := by
  refine ⟨?_, ?_, ?_, ?_, ?_, ?_, ?_, ?_⟩
  · intro p n c h
    simp [profileGetOrCreate, h]
  · intro p n hcomp h
    simp [profileGetOrCreate, h, addProfileP, makeCompositeNode_of_composite hcomp,
      name_newProfileFromBuilder]
  · intro p sp c hcomp h
    simp [addProfileP, makeCompositeNode_of_composite hcomp, h]
  · intro p n
    rcases hf : findChild p.children n with _ | c
    · have hnone : findChild (makeCompositeNode p).children n = none :=
        findChild_of_makeCompositeNode_none hf
      have hfound :
          findChild ((makeCompositeNode p).children ++ [newProfileFromBuilder p.builder n]) n =
            some (newProfileFromBuilder p.builder n) :=
        findChild_append_singleton hnone (name_newProfileFromBuilder _ _)
      simp [profileGetOrCreate, hf, addProfileP, hnone, hfound,
        name_newProfileFromBuilder]
    · simp [profileGetOrCreate, hf]
  · intro g n c h
    simp [groupGetOrCreate, h]
  · intro g n h
    simp [groupGetOrCreate, h, addProfileG, name_newProfileFromBuilder]
  · intro g sp c h
    simp [addProfileG, h]
  · intro g n
    rcases hf : findChild g.profiles n with _ | c
    · have hfound :
          findChild (g.profiles ++ [newProfileFromBuilder g.builder n]) n =
            some (newProfileFromBuilder g.builder n) :=
        findChild_append_singleton hf (name_newProfileFromBuilder _ _)
      simp [groupGetOrCreate, hf, addProfileG, hfound, name_newProfileFromBuilder]
    · simp [groupGetOrCreate, hf]

/-- Witness for `getOrCreate_first_registrant_wins` on the concrete
composite profile `c1P0` and the missing child name `"x"`. -/
theorem getOrCreate_first_registrant_wins_spot :
    c1P0.composite = true ∧ findChild c1P0.children "x" = none ∧
    profileGetOrCreate c1P0 "x" =
      (c1P0.addChild (newProfileFromBuilder c1P0.builder "x"),
        newProfileFromBuilder c1P0.builder "x") ∧
    profileGetOrCreate (profileGetOrCreate c1P0 "x").1 "x" =
      ((profileGetOrCreate c1P0 "x").1, (profileGetOrCreate c1P0 "x").2) :=
  ⟨composite_makeCompositeNode _, rfl,
    getOrCreate_first_registrant_wins.2.1 c1P0 "x" (composite_makeCompositeNode _) rfl,
    getOrCreate_first_registrant_wins.2.2.2.1 c1P0 "x"⟩

/-- **C4.**  Stopping a timer bound to a non-composite profile `P`
(arbitrary prior stats record, hence arbitrary prior samples) with
condition path `["a", "b"]` (where `b` is not the default segment name)
converts `P` to composite — its prior stats record is replaced by a
fresh one, immediately invalidated — creates the chain `P → a → b` whose
intermediate node `a` is composite whatever the builder's composite
flag says, and registers exactly one sample at the leaf `b`: its record
holds one sample, retained verbatim in memory mode and folded to
`totalTime = stop - start` in memoryless mode. -/
theorem stopAs_on_leaf_resolves_path (dflt a b nm : String) (m : Bool) (k : Nat)
    (bcfg : BuilderCfg) (st : ProfileStats) (smp : GoSample) (hb : b ≠ dflt) :
    registerTimerP dflt (.node nm false m k bcfg st []) [a, b] smp =
      .node nm true m k bcfg { freshProfileStats with valid := false }
        [.node a true bcfg.memory bcfg.nThreads { bcfg with composite := false }
          { freshProfileStats with valid := false }
          [.node b false bcfg.memory bcfg.nThreads { bcfg with composite := false }
            (registerSampleStats freshProfileStats bcfg.memory bcfg.nThreads smp) []]] ∧
    (registerSampleStats freshProfileStats bcfg.memory bcfg.nThreads smp).nsamples = 1 ∧
    (bcfg.memory = true →
      (registerSampleStats freshProfileStats bcfg.memory bcfg.nThreads smp).samples = [smp]) ∧
    (bcfg.memory = false →
      (registerSampleStats freshProfileStats bcfg.memory bcfg.nThreads smp).totalTime = smp.dur) := by
  refine ⟨?_, ?_, ?_, ?_⟩
  · rcases hbc : bcfg.memory <;> rcases hbc2 : bcfg.composite <;>
      simp [registerTimerP, registerFresh, findChild, newProfileFromBuilder,
        makeCompositeNode, registerSampleNode, ProfileTree.markInvalid,
        ProfileTree.addChild, ProfileTree.withStats, ProfileTree.children,
        ProfileTree.composite, ProfileTree.name, ProfileTree.builder,
        ProfileTree.stats, ProfileTree.memory, ProfileTree.nThreads, hb, hbc, hbc2]
  · rcases hbc : bcfg.memory <;> simp [registerSampleStats, hbc, freshProfileStats]
  · intro hbc; simp [registerSampleStats, hbc, freshProfileStats]
  · intro hbc; simp [registerSampleStats, hbc, freshProfileStats]

/-- Witness for `stopAs_on_leaf_resolves_path`: a leaf `P` with three
prior samples folded into its record, `StopAs("a","b")` with a 5 ns
sample, default name `"base"`. -/
theorem stopAs_on_leaf_resolves_path_spot :
    ("b" : String) ≠ "base" ∧
    (registerTimerP "base"
        (.node "P" false false 1 defaultBuilderCfg
          { freshProfileStats with nsamples := 3, totalTime := 33 } []) ["a", "b"] ⟨2, 7⟩ =
      .node "P" true false 1 defaultBuilderCfg { freshProfileStats with valid := false }
        [.node "a" true defaultBuilderCfg.memory defaultBuilderCfg.nThreads
          { defaultBuilderCfg with composite := false }
          { freshProfileStats with valid := false }
          [.node "b" false defaultBuilderCfg.memory defaultBuilderCfg.nThreads
            { defaultBuilderCfg with composite := false }
            (registerSampleStats freshProfileStats defaultBuilderCfg.memory
              defaultBuilderCfg.nThreads ⟨2, 7⟩) []]] ∧
      (registerSampleStats freshProfileStats defaultBuilderCfg.memory
        defaultBuilderCfg.nThreads ⟨2, 7⟩).nsamples = 1 ∧
      (defaultBuilderCfg.memory = true →
        (registerSampleStats freshProfileStats defaultBuilderCfg.memory
          defaultBuilderCfg.nThreads ⟨2, 7⟩).samples = [⟨2, 7⟩]) ∧
      (defaultBuilderCfg.memory = false →
        (registerSampleStats freshProfileStats defaultBuilderCfg.memory
          defaultBuilderCfg.nThreads ⟨2, 7⟩).totalTime = GoSample.dur ⟨2, 7⟩)) :=
  ⟨by decide,
    stopAs_on_leaf_resolves_path "base" "a" "b" "P" false 1 defaultBuilderCfg
      { freshProfileStats with nsamples := 3, totalTime := 33 } ⟨2, 7⟩ (by decide)⟩

theorem registerTimerP_single_found {p q : ProfileTree} {c : String}
    (dflt : String) (smp : GoSample) (hcomp : p.composite = true)
    (hf : findChild p.children c = some q) :
    registerTimerP dflt p [c] smp =
      (p.withChildren (replaceChild p.children c
        (registerTimerP dflt q [dflt] smp))).markInvalid := by
  rw [registerTimerP.eq_def]
  simp only [hcomp, if_true]
  split
  · next q2 heq =>
    rw [hf] at heq
    cases heq
    rfl
  · next heq =>
    rw [hf] at heq
    cases heq

theorem registerTimerP_single_missing {p : ProfileTree} {c : String}
    (dflt : String) (smp : GoSample) (hcomp : p.composite = true)
    (hf : findChild p.children c = none) :
    registerTimerP dflt p [c] smp =
      (p.addChild (registerFresh dflt p.builder c smp)).markInvalid := by
  rw [registerTimerP.eq_def]
  simp only [hcomp, if_true]
  split
  · next q2 heq =>
    rw [hf] at heq
    cases heq
  · next heq => rfl

theorem registerTimerP_single_leaf_default {p : ProfileTree}
    (dflt : String) (smp : GoSample) (hcomp : p.composite = false) :
    registerTimerP dflt p [dflt] smp = registerSampleNode p smp := by
  rw [registerTimerP.eq_def]
  simp [hcomp]

theorem registerTimerP_single_leaf_other {p : ProfileTree} {c : String}
    (dflt : String) (smp : GoSample) (hcomp : p.composite = false)
    (hc : c ≠ dflt) :
    registerTimerP dflt p [c] smp =
      ((makeCompositeNode p).addChild
        (registerFresh dflt (makeCompositeNode p).builder c smp)).markInvalid := by
  rw [registerTimerP.eq_def]
  simp [hcomp, hc]

theorem registerTimerP_cons_found {p q : ProfileTree} {c : String}
    (dflt c2 : String) (rest : List String) (smp : GoSample)
    (hf : findChild p.children c = some q) :
    registerTimerP dflt p (c :: c2 :: rest) smp =
      (p.withChildren (replaceChild p.children c
        (registerTimerP dflt q (c2 :: rest) smp))).markInvalid := by
  rw [registerTimerP.eq_def]
  split
  · next heq => simp at heq
  · next cx c2x restx heq =>
    obtain ⟨h1, h2, h3⟩ : c = cx ∧ c2 = c2x ∧ rest = restx := by
      simpa using heq
    subst h1; subst h2; subst h3
    split
    · next q2 heq2 =>
      rw [hf] at heq2
      cases heq2
      rfl
    · next heq2 =>
      rw [hf] at heq2
      cases heq2
  · next cx heq => simp at heq

theorem registerTimerP_cons_missing {p : ProfileTree} {c : String}
    (dflt c2 : String) (rest : List String) (smp : GoSample)
    (hf : findChild p.children c = none) :
    registerTimerP dflt p (c :: c2 :: rest) smp =
      ((makeCompositeNode p).addChild
        (registerTimerP dflt (newProfileFromBuilder p.builder c)
          (c2 :: rest) smp)).markInvalid := by
  rw [registerTimerP.eq_def]
  split
  · next heq => simp at heq
  · next cx c2x restx heq =>
    obtain ⟨h1, h2, h3⟩ : c = cx ∧ c2 = c2x ∧ rest = restx := by
      simpa using heq
    subst h1; subst h2; subst h3
    split
    · next q2 heq2 =>
      rw [hf] at heq2
      cases heq2
    · next heq2 => rfl
  · next cx heq => simp at heq

set_option maxRecDepth 4000 in
/-- **C1 (evaluation at the failing input).**  Composite profile `P`
with one memoryless single-threaded leaf child `c`; a 5 ns sample is
registered, an update pass runs, a second 5 ns sample is registered and
a second update pass runs.  After the second pass the composite's
`nsamples` is 3 — the stale 1 left by the first pass plus the
children's 2 — although the children's sample counts sum to 2, and the
child's `taken` becomes `2/3` instead of `1`: the composite branch of
`profileStats.update` resets `totalTime` and `effectiveTime` but never
`nsamples` (statistics.go:193-201), unlike `groupStats.update`
(statistics.go:54-56). -/
theorem composite_nsamples_never_reset :
    registerTimerP "base" c1P0 ["c"] ⟨0, 5⟩ = c1T1 ∧
    updateProfile c1T1 = some c1T2 ∧
    registerTimerP "base" c1T2 ["c"] ⟨10, 15⟩ = c1T3 ∧
    updateProfile c1T3 = some c1T4 ∧
    c1T4.stats.nsamples = 3 ∧
    (c1T4.children.map fun q => q.stats.nsamples).sum = 2 ∧
    c1T4.stats.totalTime = (c1T4.children.map fun q => q.stats.totalTime).sum ∧
    (c1T4.children.map fun q => q.stats.taken) = [some (2 / 3 : ℚ)] := by
  refine ⟨?_, ?_, ?_, ?_, ?_, ?_, ?_, ?_⟩
  · have hf : findChild c1P0.children "c" = none := rfl
    rw [registerTimerP_single_missing "base" ⟨0, 5⟩
      (show c1P0.composite = true by rfl) hf]
    simp [c1P0, c1T1, registerFresh, findChild, newProfileFromBuilder,
      makeCompositeNode, registerSampleNode, registerSampleStats,
      defaultBuilderCfg, ProfileTree.markInvalid, ProfileTree.addChild,
      ProfileTree.withStats, ProfileTree.children, ProfileTree.composite,
      ProfileTree.name, ProfileTree.builder, ProfileTree.stats,
      ProfileTree.memory, ProfileTree.nThreads, freshProfileStats,
      GoSample.dur, replaceChild]
  · simp [c1T1, c1T2, defaultBuilderCfg, ProfileTree.stats, freshProfileStats,
      updateProfile, updateChildren, updateCompositeStats,
      updateLeafMemoryStats, fdiv, GoSample.dur, ProfileTree.withStats,
      ProfileTree.children, ProfileTree.composite]
  · have hf : findChild c1T2.children "c" =
        some (ProfileTree.node "c" false false 1 defaultBuilderCfg
          { freshProfileStats with
            totalTime := 5, effectiveTime := 5, meanTime := 5, nsamples := 1,
            timeslice := some 1, taken := some 1 } []) := rfl
    rw [registerTimerP_single_found "base" ⟨10, 15⟩ (by rfl) hf,
      registerTimerP_single_leaf_default "base" ⟨10, 15⟩ (by rfl)]
    simp [c1T2, c1T3, registerSampleNode, registerSampleStats,
      defaultBuilderCfg, ProfileTree.markInvalid, ProfileTree.withStats,
      ProfileTree.withChildren, ProfileTree.children, ProfileTree.composite,
      ProfileTree.name, ProfileTree.stats, ProfileTree.memory,
      ProfileTree.nThreads, freshProfileStats, GoSample.dur, replaceChild]
  · simp [c1T3, c1T4, defaultBuilderCfg, ProfileTree.stats, freshProfileStats,
      updateProfile, updateChildren, updateCompositeStats,
      updateLeafMemoryStats, fdiv, GoSample.dur, ProfileTree.withStats,
      ProfileTree.children, ProfileTree.composite]
  · simp [c1T4, ProfileTree.stats, freshProfileStats]
  · simp [c1T4, ProfileTree.children, ProfileTree.stats, freshProfileStats]
  · simp [c1T4, ProfileTree.children, ProfileTree.stats, freshProfileStats]
  · simp [c1T4, ProfileTree.children, ProfileTree.stats, freshProfileStats]

/-- **C5 (counterexample).**  Updating a composite node whose children
hold zero samples fails at runtime: starting from the composite `c1P0`,
a 5 ns sample lands in the fresh leaf child `L`, then `MakeComposite`
on `L` discards `L`'s aggregate (`c1P0`'s record is still invalid from
the registration); the next update pass reaches
`s.meanTime = s.effectiveTime / s.nsamples` with `s.nsamples = 0` and
panics — modelled as `none` — instead of yielding 0. -/
theorem composite_update_panics_on_zero_samples :
    registerTimerP "base" c1P0 ["L"] ⟨0, 5⟩ =
      ProfileTree.node "P" true false 1 defaultBuilderCfg
        { freshProfileStats with valid := false }
        [ProfileTree.node "L" false false 1 defaultBuilderCfg
          { freshProfileStats with
            totalTime := 5, effectiveTime := 5, meanTime := 5, nsamples := 1 } []] ∧
    (ProfileTree.node "P" true false 1 defaultBuilderCfg
        { freshProfileStats with valid := false }
        [ProfileTree.node "L" false false 1 defaultBuilderCfg
          { freshProfileStats with
            totalTime := 5, effectiveTime := 5, meanTime := 5, nsamples := 1 } []]).withChildren
      (replaceChild
        [ProfileTree.node "L" false false 1 defaultBuilderCfg
          { freshProfileStats with
            totalTime := 5, effectiveTime := 5, meanTime := 5, nsamples := 1 } []]
        "L"
        (makeCompositeNode
          (ProfileTree.node "L" false false 1 defaultBuilderCfg
            { freshProfileStats with
              totalTime := 5, effectiveTime := 5, meanTime := 5, nsamples := 1 } []))) =
      c5T2 ∧
    updateProfile c5T2 = none := by
  refine ⟨?_, ?_, ?_⟩
  · have hf : findChild c1P0.children "L" = none := rfl
    rw [registerTimerP_single_missing "base" ⟨0, 5⟩
      (show c1P0.composite = true by rfl) hf]
    simp [c1P0, registerFresh, findChild, newProfileFromBuilder,
      makeCompositeNode, registerSampleNode, registerSampleStats,
      defaultBuilderCfg, ProfileTree.markInvalid, ProfileTree.addChild,
      ProfileTree.withStats, ProfileTree.children, ProfileTree.composite,
      ProfileTree.name, ProfileTree.builder, ProfileTree.stats,
      ProfileTree.memory, ProfileTree.nThreads, freshProfileStats,
      GoSample.dur, replaceChild]
  · simp [c5T2, replaceChild, makeCompositeNode, ProfileTree.withChildren,
      ProfileTree.name, ProfileTree.composite, ProfileTree.memory,
      ProfileTree.nThreads, ProfileTree.builder, freshProfileStats,
      defaultBuilderCfg]
  · simp [c5T2, updateProfile, updateChildren, updateCompositeStats,
      defaultBuilderCfg, ProfileTree.stats, ProfileTree.children,
      ProfileTree.composite, freshProfileStats]

/-- **C5 (amended).**  Zero-divisor behavior is split, not uniformly 0:
a non-composite memory-retaining record with zero samples takes an
explicit guard that sets `meanTime` and `timeslice` to 0; but the
composite branch divides by the accumulated sample count with `uint64`
division, which panics when that count is zero; and the float ratios
`timeslice`/`taken` with a zero divisor are non-finite (NaN/Inf), not
0. -/
theorem zero_divisor_ratio_behavior :
    (∀ (k : Nat) (st : ProfileStats), st.samples = [] →
      (updateLeafMemoryStats k st).meanTime = 0 ∧
      (updateLeafMemoryStats k st).timeslice = some 0) ∧
    (∀ (st : ProfileStats) (ch : List ProfileTree),
      st.nsamples + (ch.map fun q => q.stats.nsamples).sum = 0 →
      updateCompositeStats st ch = none) ∧
    (∀ a : Nat, fdiv a 0 = none) := by
  refine ⟨?_, ?_, ?_⟩
  · intro k st h
    constructor <;> simp [updateLeafMemoryStats, h]
  · intro st ch h
    simp only [updateCompositeStats, foldl_add_map, Nat.add_comm]
    rw [if_pos (by omega)]
  · intro a
    simp [fdiv]

/-- Witness for `zero_divisor_ratio_behavior` at the fresh stats record,
no children, and numerator 7. -/
theorem zero_divisor_ratio_behavior_spot :
    (freshProfileStats.samples = [] ∧
      (updateLeafMemoryStats 1 freshProfileStats).meanTime = 0 ∧
      (updateLeafMemoryStats 1 freshProfileStats).timeslice = some 0) ∧
    (freshProfileStats.nsamples +
        (([] : List ProfileTree).map fun q => q.stats.nsamples).sum = 0 ∧
      updateCompositeStats freshProfileStats [] = none) ∧
    fdiv 7 0 = none :=
  ⟨⟨rfl, zero_divisor_ratio_behavior.1 1 freshProfileStats rfl⟩,
    ⟨rfl, zero_divisor_ratio_behavior.2.1 freshProfileStats [] rfl⟩,
    zero_divisor_ratio_behavior.2.2 7⟩

/-- **C3 (counterexample).**  Group `G` with one memoryless top-level
leaf `p`: after an update pass validates the group record, registering
a 5 ns sample through a stopped timer leaves the group's stats record
valid (`profileStats.invalidate` stops at the top-level profile, whose
`parent` is nil) and the leaf's record valid as well (the memoryless
registration restores it), so the claim that the registration marks the
chain up to and including the group's stats invalid — and that only the
update pass restores validity — fails; the group's aggregates are then
stale forever: a further update pass is a no-op and the group still
reports `totalTime = 0` against the leaf's 5. -/
theorem group_stats_never_invalidated :
    updateGroup c3G0 = some c3G1 ∧
    registerInGroup "base" c3G1 "p" ["base"] ⟨0, 5⟩ = c3G2 ∧
    c3G2.stats.valid = true ∧
    (c3G2.profiles.map fun q => q.stats.valid) = [true] ∧
    updateGroup c3G2 = some c3G2 ∧
    c3G2.stats.totalTime = 0 ∧
    (c3G2.profiles.map fun q => q.stats.totalTime) = [5] := by
  refine ⟨?_, ?_, rfl, rfl, ?_, rfl, rfl⟩
  · simp [c3G0, c3G1, groupGetOrCreate, addProfileG, findChild, freshGroup,
      newProfileFromBuilder, updateGroup, updateChildren, updateProfile,
      updateGroupStats, fdiv, freshGroupStats, freshProfileStats,
      defaultBuilderCfg, ProfileTree.stats, ProfileTree.children,
      ProfileTree.composite, ProfileTree.withStats]
  · simp only [registerInGroup, c3G1, List.map, ProfileTree.name, if_true,
      reduceIte]
    rw [registerTimerP_single_leaf_default "base" ⟨0, 5⟩ (by rfl)]
    simp [c3G2, registerSampleNode, registerSampleStats, freshProfileStats,
      ProfileTree.withStats, ProfileTree.memory, ProfileTree.nThreads,
      ProfileTree.stats, GoSample.dur]
  · simp [c3G2, updateGroup, updateChildren, updateProfile, updateGroupStats,
      freshProfileStats, defaultBuilderCfg, ProfileTree.stats,
      ProfileTree.children, ProfileTree.composite]

/-- **C3 (amended).**  Registering a sample invalidates every profile
node the registration descends through — the registering leaf's
ancestors inside the stopped profile's subtree — but never the owning
group's stats record, which the registration leaves untouched; and the
memoryless leaf itself is re-validated by the registration before it
returns (only the memory-retaining leaf stays invalid until the next
update pass). -/
theorem registration_invalidation_shape :
    (∀ (dflt : String) (g : GroupTree) (pn : String) (cs : List String)
        (smp : GoSample), (registerInGroup dflt g pn cs smp).stats = g.stats) ∧
    (∀ (dflt : String) (p : ProfileTree) (smp : GoSample),
      p.composite = false → p.memory = false →
      (registerTimerP dflt p [dflt] smp).stats.valid = true) ∧
    (∀ (dflt : String) (p : ProfileTree) (smp : GoSample),
      p.composite = false → p.memory = true →
      (registerTimerP dflt p [dflt] smp).stats.valid = false) ∧
    (∀ (dflt c : String) (p : ProfileTree) (smp : GoSample),
      p.composite = true → (registerTimerP dflt p [c] smp).stats.valid = false) ∧
    (∀ (dflt c : String) (p : ProfileTree) (smp : GoSample),
      p.composite = false → c ≠ dflt →
      (registerTimerP dflt p [c] smp).stats.valid = false) ∧
    (∀ (dflt c c2 : String) (rest : List String) (p : ProfileTree)
        (smp : GoSample),
      (registerTimerP dflt p (c :: c2 :: rest) smp).stats.valid = false) := by
  refine ⟨?_, ?_, ?_, ?_, ?_, ?_⟩
  · intro dflt g pn cs smp
    simp [registerInGroup]
  · intro dflt p smp h1 h2
    rw [registerTimerP_single_leaf_default dflt smp h1]
    simp [registerSampleNode, registerSampleStats, h2]
  · intro dflt p smp h1 h2
    rw [registerTimerP_single_leaf_default dflt smp h1]
    simp [registerSampleNode, registerSampleStats, h2]
  · intro dflt c p smp h1
    rcases hf : findChild p.children c with _ | q
    · rw [registerTimerP_single_missing dflt smp h1 hf]; simp
    · rw [registerTimerP_single_found dflt smp h1 hf]; simp
  · intro dflt c p smp h1 hc
    rw [registerTimerP_single_leaf_other dflt smp h1 hc]
    simp
  · intro dflt c c2 rest p smp
    rcases hf : findChild p.children c with _ | q
    · rw [registerTimerP_cons_missing dflt c2 rest smp hf]; simp
    · rw [registerTimerP_cons_found dflt c2 rest smp hf]; simp

/-- Witness for `registration_invalidation_shape` on concrete nodes: the
group `c3G1`, a memoryless leaf, a memory-retaining leaf, the composite
`c1P0`, a leaf stopped with a non-default condition, and a two-segment
condition path. -/
theorem registration_invalidation_shape_spot :
    (registerInGroup "base" c3G1 "p" ["base"] ⟨0, 5⟩).stats = c3G1.stats ∧
    ((ProfileTree.node "u" false false 1 defaultBuilderCfg freshProfileStats
        [] : ProfileTree).composite = false ∧
      (registerTimerP "base"
        (ProfileTree.node "u" false false 1 defaultBuilderCfg freshProfileStats [])
        ["base"] ⟨0, 5⟩).stats.valid = true) ∧
    ((registerTimerP "base"
        (ProfileTree.node "v" false true 1 defaultBuilderCfg freshProfileStats [])
        ["base"] ⟨0, 5⟩).stats.valid = false) ∧
    (c1P0.composite = true ∧
      (registerTimerP "base" c1P0 ["x"] ⟨0, 5⟩).stats.valid = false) ∧
    (("x" : String) ≠ "base" ∧
      (registerTimerP "base"
        (ProfileTree.node "w" false false 1 defaultBuilderCfg freshProfileStats [])
        ["x"] ⟨0, 5⟩).stats.valid = false) ∧
    ((registerTimerP "base"
        (ProfileTree.node "z" false false 1 defaultBuilderCfg freshProfileStats [])
        ["a", "b"] ⟨0, 5⟩).stats.valid = false) :=
  ⟨registration_invalidation_shape.1 "base" c3G1 "p" ["base"] ⟨0, 5⟩,
    ⟨rfl, registration_invalidation_shape.2.1 "base" _ ⟨0, 5⟩ rfl rfl⟩,
    registration_invalidation_shape.2.2.1 "base" _ ⟨0, 5⟩ rfl rfl,
    ⟨rfl, registration_invalidation_shape.2.2.2.1 "base" "x" c1P0 ⟨0, 5⟩ rfl⟩,
    ⟨by decide, registration_invalidation_shape.2.2.2.2.1 "base" "x" _ ⟨0, 5⟩ rfl
      (by decide)⟩,
    registration_invalidation_shape.2.2.2.2.2 "base" "a" "b" [] _ ⟨0, 5⟩⟩

theorem allValidB_withStats_ratio (q : ProfileTree) (ts tk : Option ℚ) :
    allValidB (q.withStats { q.stats with timeslice := ts, taken := tk }) =
      allValidB q := by
  cases q with
  | node n c m k b st ch =>
    simp [allValidB, ProfileTree.withStats, ProfileTree.stats]

theorem allValidListB_map_ratio (eff n : Nat) (ch : List ProfileTree) :
    allValidListB (ch.map fun q => q.withStats
      { q.stats with
        timeslice := fdiv q.stats.effectiveTime eff,
        taken := fdiv q.stats.nsamples n }) = allValidListB ch := by
  induction ch with
  | nil => rfl
  | cons t tl ih =>
    simp only [List.map, allValidListB, allValidB_withStats_ratio, ih]

theorem updateCompositeStats_allValid {st : ProfileStats}
    {ch : List ProfileTree} {st2 : ProfileStats} {ch3 : List ProfileTree}
    (h : updateCompositeStats st ch = some (st2, ch3)) :
    st2.valid = true ∧ allValidListB ch3 = allValidListB ch := by
  simp only [updateCompositeStats] at h
  split at h
  · cases h
  · rw [Option.some_inj] at h
    cases h
    exact ⟨rfl, allValidListB_map_ratio _ _ ch⟩

theorem updateLeafMemoryStats_valid (k : Nat) (st : ProfileStats) :
    (updateLeafMemoryStats k st).valid = true := by
  simp only [updateLeafMemoryStats]
  split <;> rfl

mutual

theorem updateProfile_allValid :
    ∀ (t t2 : ProfileTree), updateProfile t = some t2 → allValidB t2 = true
  | .node n c m k b st ch, t2 => by
    intro h
    simp only [updateProfile] at h
    cases hch : updateChildren ch with
    | none => rw [hch] at h; cases h
    | some ch2 =>
      have hach : allValidListB ch2 = true := updateChildren_allValid ch ch2 hch
      rw [hch] at h
      simp only [Option.bind_eq_bind, Option.some_bind] at h
      by_cases hv : st.valid = true
      · rw [if_pos hv, Option.some_inj] at h
        cases h
        simp [allValidB, hv, hach]
      · rw [if_neg hv] at h
        by_cases hc : c = false
        · rw [if_pos hc] at h
          by_cases hm : m = false
          · rw [if_pos hm, Option.some_inj] at h
            cases h
            simp [allValidB, hach]
          · rw [if_neg hm, Option.some_inj] at h
            cases h
            simp [allValidB, hach, updateLeafMemoryStats_valid]
        · rw [if_neg hc] at h
          cases huc : updateCompositeStats st ch2 with
          | none => rw [huc] at h; cases h
          | some r =>
            obtain ⟨st2, ch3⟩ := r
            obtain ⟨hv2, hl2⟩ := updateCompositeStats_allValid huc
            rw [huc, Option.some_inj] at h
            cases h
            simp [allValidB, hv2, hl2, hach]

theorem updateChildren_allValid :
    ∀ (l l2 : List ProfileTree), updateChildren l = some l2 →
      allValidListB l2 = true
  | [], l2 => by
    intro h
    simp only [updateChildren, Option.some_inj] at h
    cases h
    rfl
  | t :: ts, l2 => by
    intro h
    simp only [updateChildren] at h
    cases ht : updateProfile t with
    | none => rw [ht] at h; cases h
    | some t2 =>
      cases hts : updateChildren ts with
      | none => rw [ht, hts] at h; cases h
      | some ts2 =>
        have h1 := updateProfile_allValid t t2 ht
        have h2 := updateChildren_allValid ts ts2 hts
        rw [ht, hts] at h
        simp only [Option.bind_eq_bind, Option.some_bind, Option.some_inj] at h
        cases h
        simp [allValidListB, h1, h2]

end

mutual

theorem allValid_updateProfile_id :
    ∀ t : ProfileTree, allValidB t = true → updateProfile t = some t
  | .node n c m k b st ch => by
    intro h
    simp only [allValidB, Bool.and_eq_true] at h
    obtain ⟨hv, hl⟩ := h
    have hch : updateChildren ch = some ch :=
      allValidList_updateChildren_id ch hl
    simp only [updateProfile, hch, Option.bind_eq_bind, Option.some_bind,
      if_pos hv]

theorem allValidList_updateChildren_id :
    ∀ l : List ProfileTree, allValidListB l = true → updateChildren l = some l
  | [] => by
    intro h
    simp [updateChildren]
  | t :: ts => by
    intro h
    simp only [allValidListB, Bool.and_eq_true] at h
    obtain ⟨h1, h2⟩ := h
    have ht : updateProfile t = some t := allValid_updateProfile_id t h1
    have hts : updateChildren ts = some ts :=
      allValidList_updateChildren_id ts h2
    simp only [updateChildren, ht, hts, Option.bind_eq_bind, Option.some_bind]

end

theorem updateGroupStats_of_valid {gs : GroupStats} (ps : List ProfileTree)
    (h : gs.valid = true) : updateGroupStats gs ps = (gs, ps) := by
  simp [updateGroupStats, h]

theorem updateGroupStats_parts (gs : GroupStats) (ps : List ProfileTree) :
    (updateGroupStats gs ps).1.valid = true ∧
    allValidListB (updateGroupStats gs ps).2 = allValidListB ps := by
  by_cases h : gs.valid = true
  · simp [updateGroupStats, h]
  · constructor
    · simp [updateGroupStats, h]
    · simp only [updateGroupStats, h, if_false, Bool.false_eq_true]
      exact allValidListB_map_ratio _ _ ps

/-- **C7.**  The update pass is idempotent: if an update-and-snapshot
pass on a group tree completes (producing `g2`), a second pass with no
intervening registrations returns `g2` unchanged — every stats record
is valid after the first pass, so every node's update is the
early-return no-op. -/
theorem updateGroup_idempotent (g g2 : GroupTree)
    (h : updateGroup g = some g2) : updateGroup g2 = some g2 := by
  simp only [updateGroup] at h
  cases hps : updateChildren g.profiles with
  | none => rw [hps] at h; cases h
  | some ps =>
    rw [hps] at h
    simp only [Option.bind_eq_bind, Option.some_bind, Option.some_inj] at h
    have hap : allValidListB ps = true := updateChildren_allValid _ _ hps
    obtain ⟨hv2, hl2⟩ := updateGroupStats_parts g.stats ps
    subst h
    have hap2 : allValidListB (updateGroupStats g.stats ps).2 = true := by
      rw [hl2]; exact hap
    simp only [updateGroup]
    rw [allValidList_updateChildren_id _ hap2]
    simp only [Option.bind_eq_bind, Option.some_bind,
      updateGroupStats_of_valid _ hv2]

/-- Witness for `updateGroup_idempotent`: the empty group `"g"` updates
to a group with validated zero aggregates, and a second update is the
identity on it. -/
theorem updateGroup_idempotent_spot :
    updateGroup (freshGroup "g") = some
      { name := "g",
        stats := { valid := true, totalTime := 0, effectiveTime := 0, nsamples := 0 },
        builder := defaultBuilderCfg, profiles := [] } ∧
    updateGroup
      { name := "g",
        stats := { valid := true, totalTime := 0, effectiveTime := 0, nsamples := 0 },
        builder := defaultBuilderCfg, profiles := [] } = some
      { name := "g",
        stats := { valid := true, totalTime := 0, effectiveTime := 0, nsamples := 0 },
        builder := defaultBuilderCfg, profiles := [] } := by
  have h1 : updateGroup (freshGroup "g") = some
      { name := "g",
        stats := { valid := true, totalTime := 0, effectiveTime := 0, nsamples := 0 },
        builder := defaultBuilderCfg, profiles := [] } := by
    simp [updateGroup, updateChildren, updateGroupStats, freshGroup,
      freshGroupStats]
  exact ⟨h1, updateGroup_idempotent _ _ h1⟩

theorem wfB_eq (t : ProfileTree) :
    wfB t = ((t.composite || t.children.isEmpty) && wfListB t.children) := by
  cases t <;> rfl

theorem mlValidB_eq (t : ProfileTree) :
    mlValidB t = ((t.composite || t.memory || t.stats.valid) &&
      mlValidListB t.children) := by
  cases t <;> rfl

theorem wfListB_append (l1 l2 : List ProfileTree) :
    wfListB (l1 ++ l2) = (wfListB l1 && wfListB l2) := by
  induction l1 with
  | nil => simp [wfListB]
  | cons t ts ih => simp [wfListB, ih, Bool.and_assoc]

theorem mlValidListB_append (l1 l2 : List ProfileTree) :
    mlValidListB (l1 ++ l2) = (mlValidListB l1 && mlValidListB l2) := by
  induction l1 with
  | nil => simp [mlValidListB]
  | cons t ts ih => simp [mlValidListB, ih, Bool.and_assoc]

theorem wfListB_replaceChild {l : List ProfileTree} {nm : String}
    {t2 : ProfileTree} (hl : wfListB l = true) (ht : wfB t2 = true) :
    wfListB (replaceChild l nm t2) = true := by
  induction l with
  | nil => rfl
  | cons t ts ih =>
    simp only [wfListB, Bool.and_eq_true] at hl
    simp only [replaceChild, List.map, wfListB, Bool.and_eq_true]
    refine ⟨?_, ?_⟩
    · split <;> simp [ht, hl.1]
    · exact ih hl.2

theorem mlValidListB_replaceChild {l : List ProfileTree} {nm : String}
    {t2 : ProfileTree} (hl : mlValidListB l = true) (ht : mlValidB t2 = true) :
    mlValidListB (replaceChild l nm t2) = true := by
  induction l with
  | nil => rfl
  | cons t ts ih =>
    simp only [mlValidListB, Bool.and_eq_true] at hl
    simp only [replaceChild, List.map, mlValidListB, Bool.and_eq_true]
    refine ⟨?_, ?_⟩
    · split <;> simp [ht, hl.1]
    · exact ih hl.2

theorem wfB_of_findChild {l : List ProfileTree} {nm : String}
    {q : ProfileTree} (h : findChild l nm = some q) (hl : wfListB l = true) :
    wfB q = true := by
  induction l with
  | nil => cases h
  | cons t ts ih =>
    simp only [wfListB, Bool.and_eq_true] at hl
    simp only [findChild, List.find?_cons] at h
    split at h
    · cases h; exact hl.1
    · exact ih h hl.2

theorem mlValidB_of_findChild {l : List ProfileTree} {nm : String}
    {q : ProfileTree} (h : findChild l nm = some q)
    (hl : mlValidListB l = true) : mlValidB q = true := by
  induction l with
  | nil => cases h
  | cons t ts ih =>
    simp only [mlValidListB, Bool.and_eq_true] at hl
    simp only [findChild, List.find?_cons] at h
    split at h
    · cases h; exact hl.1
    · exact ih h hl.2

theorem composite_of_wfB_found {p q : ProfileTree} {nm : String}
    (hw : wfB p = true) (h : findChild p.children nm = some q) :
    p.composite = true := by
  rw [wfB_eq, Bool.and_eq_true, Bool.or_eq_true] at hw
  rcases hw.1 with hc | he
  · exact hc
  · exfalso
    rw [List.isEmpty_iff] at he
    rw [he] at h
    cases h

theorem wfB_newProfileFromBuilder (cfg : BuilderCfg) (nm : String) :
    wfB (newProfileFromBuilder cfg nm) = true := by
  simp [newProfileFromBuilder, wfB, wfListB, ProfileTree.children]

theorem mlValidB_newProfileFromBuilder (cfg : BuilderCfg) (nm : String) :
    mlValidB (newProfileFromBuilder cfg nm) = true := by
  simp [newProfileFromBuilder, mlValidB, mlValidListB, freshProfileStats]

theorem wfB_makeCompositeNode {t : ProfileTree} (h : wfB t = true) :
    wfB (makeCompositeNode t) = true := by
  by_cases hc : t.composite = true
  · rwa [makeCompositeNode_of_composite hc]
  · cases t with
    | node n c m k b st ch =>
      simp only [ProfileTree.composite] at hc
      simp [makeCompositeNode, ProfileTree.composite, hc, wfB, wfListB]

theorem mlValidB_makeCompositeNode {t : ProfileTree} (h : mlValidB t = true) :
    mlValidB (makeCompositeNode t) = true := by
  by_cases hc : t.composite = true
  · rwa [makeCompositeNode_of_composite hc]
  · cases t with
    | node n c m k b st ch =>
      simp only [ProfileTree.composite] at hc
      simp [makeCompositeNode, ProfileTree.composite, hc, mlValidB, mlValidListB]

theorem registerSampleStats_valid (st : ProfileStats) (m : Bool) (k : Nat)
    (smp : GoSample) : (registerSampleStats st m k smp).valid = !m := by
  cases m <;> simp [registerSampleStats]

theorem wfB_registerSampleNode {t : ProfileTree} (smp : GoSample)
    (h : wfB t = true) : wfB (registerSampleNode t smp) = true := by
  rw [wfB_eq] at h ⊢
  simpa [registerSampleNode] using h

theorem mlValidListB_of_mlValidB {t : ProfileTree} (h : mlValidB t = true) :
    mlValidListB t.children = true := by
  rw [mlValidB_eq, Bool.and_eq_true] at h
  exact h.2

theorem wfListB_of_wfB {t : ProfileTree} (h : wfB t = true) :
    wfListB t.children = true := by
  rw [wfB_eq, Bool.and_eq_true] at h
  exact h.2

theorem mlValidB_registerSampleNode {t : ProfileTree} (smp : GoSample)
    (h : mlValidB t = true) : mlValidB (registerSampleNode t smp) = true := by
  rw [mlValidB_eq]
  simp only [registerSampleNode, ProfileTree.composite_withStats,
    ProfileTree.memory_withStats, ProfileTree.stats_withStats,
    ProfileTree.children_withStats, registerSampleStats_valid,
    Bool.and_eq_true]
  refine ⟨?_, mlValidListB_of_mlValidB h⟩
  cases hm : t.memory <;> simp [hm]

theorem wfB_registerFresh (dflt : String) (cfg : BuilderCfg) (cname : String)
    (smp : GoSample) : wfB (registerFresh dflt cfg cname smp) = true := by
  cases hc : cfg.composite <;>
    simp [registerFresh, hc, registerSampleNode, newProfileFromBuilder,
      ProfileTree.markInvalid, ProfileTree.addChild, ProfileTree.withStats,
      ProfileTree.stats, ProfileTree.memory, ProfileTree.nThreads,
      ProfileTree.builder, wfB, wfListB]

theorem mlValidB_registerFresh (dflt : String) (cfg : BuilderCfg)
    (cname : String) (smp : GoSample) :
    mlValidB (registerFresh dflt cfg cname smp) = true := by
  cases hc : cfg.composite <;> cases hm : cfg.memory <;>
    simp [registerFresh, hc, hm, registerSampleNode, registerSampleStats,
      newProfileFromBuilder, freshProfileStats, ProfileTree.markInvalid,
      ProfileTree.addChild, ProfileTree.withStats, ProfileTree.stats,
      ProfileTree.memory, ProfileTree.nThreads, ProfileTree.builder,
      mlValidB, mlValidListB]

theorem wfB_markInvalid {t : ProfileTree} (h : wfB t = true) :
    wfB t.markInvalid = true := by
  rw [wfB_eq] at h ⊢
  simpa using h

theorem mlValidB_markInvalid_of_composite {t : ProfileTree}
    (hc : t.composite = true) (hl : mlValidListB t.children = true) :
    mlValidB t.markInvalid = true := by
  rw [mlValidB_eq]
  simp [hc, hl]

theorem registerTimerP_wf_mlValid :
    ∀ (dflt : String) (conds : List String) (p : ProfileTree) (smp : GoSample),
      wfB p = true → mlValidB p = true →
      wfB (registerTimerP dflt p conds smp) = true ∧
      mlValidB (registerTimerP dflt p conds smp) = true
  | dflt, [], p, smp => by
    intro h1 h2
    simp only [registerTimerP.eq_def]
    exact ⟨h1, h2⟩
  | dflt, c :: c2 :: rest, p, smp => by
    intro h1 h2
    rcases hf : findChild p.children c with _ | q
    · rw [registerTimerP_cons_missing dflt c2 rest smp hf]
      have hfr := registerTimerP_wf_mlValid dflt (c2 :: rest)
        (newProfileFromBuilder p.builder c) smp
        (wfB_newProfileFromBuilder _ _) (mlValidB_newProfileFromBuilder _ _)
      have hwfp := wfB_makeCompositeNode h1
      have hmlp := mlValidB_makeCompositeNode h2
      constructor
      · apply wfB_markInvalid
        rw [wfB_eq]
        simp only [ProfileTree.composite_addChild,
          ProfileTree.children_addChild, composite_makeCompositeNode,
          Bool.true_or, Bool.true_and]
        rw [wfListB_append]
        simp [wfListB, wfListB_of_wfB hwfp, hfr.1]
      · apply mlValidB_markInvalid_of_composite
        · simp [composite_makeCompositeNode]
        · rw [ProfileTree.children_addChild, mlValidListB_append]
          simp [mlValidListB, mlValidListB_of_mlValidB hmlp, hfr.2]
    · rw [registerTimerP_cons_found dflt c2 rest smp hf]
      have hcomp := composite_of_wfB_found h1 hf
      have hq_wf := wfB_of_findChild hf (wfListB_of_wfB h1)
      have hq_ml := mlValidB_of_findChild hf (mlValidListB_of_mlValidB h2)
      have hfr := registerTimerP_wf_mlValid dflt (c2 :: rest) q smp hq_wf hq_ml
      constructor
      · apply wfB_markInvalid
        rw [wfB_eq]
        simp only [ProfileTree.composite_withChildren,
          ProfileTree.children_withChildren, hcomp, Bool.true_or,
          Bool.true_and]
        exact wfListB_replaceChild (wfListB_of_wfB h1) hfr.1
      · apply mlValidB_markInvalid_of_composite
        · simpa using hcomp
        · rw [ProfileTree.children_withChildren]
          exact mlValidListB_replaceChild (mlValidListB_of_mlValidB h2) hfr.2
  | dflt, [c], p, smp => by
    intro h1 h2
    by_cases hcomp : p.composite = true
    · rcases hf : findChild p.children c with _ | q
      · rw [registerTimerP_single_missing dflt smp hcomp hf]
        constructor
        · apply wfB_markInvalid
          rw [wfB_eq]
          simp only [ProfileTree.composite_addChild,
            ProfileTree.children_addChild, hcomp, Bool.true_or, Bool.true_and]
          rw [wfListB_append]
          simp [wfListB, wfListB_of_wfB h1, wfB_registerFresh]
        · apply mlValidB_markInvalid_of_composite
          · simpa using hcomp
          · rw [ProfileTree.children_addChild, mlValidListB_append]
            simp [mlValidListB, mlValidListB_of_mlValidB h2,
              mlValidB_registerFresh]
      · rw [registerTimerP_single_found dflt smp hcomp hf]
        have hq_wf := wfB_of_findChild hf (wfListB_of_wfB h1)
        have hq_ml := mlValidB_of_findChild hf (mlValidListB_of_mlValidB h2)
        have hfr := registerTimerP_wf_mlValid dflt [dflt] q smp hq_wf hq_ml
        constructor
        · apply wfB_markInvalid
          rw [wfB_eq]
          simp only [ProfileTree.composite_withChildren,
            ProfileTree.children_withChildren, hcomp, Bool.true_or,
            Bool.true_and]
          exact wfListB_replaceChild (wfListB_of_wfB h1) hfr.1
        · apply mlValidB_markInvalid_of_composite
          · simpa using hcomp
          · rw [ProfileTree.children_withChildren]
            exact mlValidListB_replaceChild (mlValidListB_of_mlValidB h2)
              hfr.2
    · replace hcomp : p.composite = false := by simpa using hcomp
      by_cases hcd : c = dflt
      · rw [hcd, registerTimerP_single_leaf_default dflt smp hcomp]
        exact ⟨wfB_registerSampleNode smp h1, mlValidB_registerSampleNode smp h2⟩
      · rw [registerTimerP_single_leaf_other dflt smp hcomp hcd]
        constructor
        · apply wfB_markInvalid
          rw [wfB_eq]
          simp only [ProfileTree.composite_addChild,
            ProfileTree.children_addChild, composite_makeCompositeNode,
            Bool.true_or, Bool.true_and,
            children_makeCompositeNode_of_leaf hcomp]
          simp [wfListB, wfB_registerFresh]
        · apply mlValidB_markInvalid_of_composite
          · simp [composite_makeCompositeNode]
          · rw [ProfileTree.children_addChild,
              children_makeCompositeNode_of_leaf hcomp]
            simp [mlValidListB, mlValidB_registerFresh]
termination_by dflt conds p smp => (conds.length, sizeOf p)
decreasing_by
  · simp only [List.length_cons]
    exact Prod.Lex.left _ _ (by omega)
  · simp only [List.length_cons]
    exact Prod.Lex.left _ _ (by omega)
  · refine Prod.Lex.right _ ?_
    have hq : q ∈ p.children := by
      simpa [findChild] using List.mem_of_find?_eq_some hf
    cases p with
    | node n c m k b st ch =>
      have hlt : sizeOf q < sizeOf ch :=
        List.sizeOf_lt_of_mem (by simpa [ProfileTree.children] using hq)
      simp only [ProfileTree.node.sizeOf_spec]
      omega

mutual

theorem mlValidB_of_allValidB :
    ∀ t : ProfileTree, allValidB t = true → mlValidB t = true
  | .node n c m k b st ch => by
    intro h
    simp only [allValidB, Bool.and_eq_true] at h
    simp only [mlValidB, Bool.and_eq_true]
    exact ⟨by simp [h.1], mlValidListB_of_allValidListB ch h.2⟩

theorem mlValidListB_of_allValidListB :
    ∀ l : List ProfileTree, allValidListB l = true → mlValidListB l = true
  | [] => by intro h; rfl
  | t :: ts => by
    intro h
    simp only [allValidListB, Bool.and_eq_true] at h
    simp only [mlValidListB, Bool.and_eq_true]
    exact ⟨mlValidB_of_allValidB t h.1, mlValidListB_of_allValidListB ts h.2⟩

end

mutual

theorem updateHitsErrorB_false_of_mlValidB :
    ∀ t : ProfileTree, mlValidB t = true → updateHitsErrorB t = false
  | .node n c m k b st ch => by
    intro h
    simp only [mlValidB, Bool.and_eq_true] at h
    simp only [updateHitsErrorB, Bool.or_eq_false_iff]
    refine ⟨updateHitsErrorListB_false_of_mlValidListB ch h.2, ?_⟩
    have h1 := h.1
    cases c <;> cases m <;> cases hst : st.valid <;> simp_all

theorem updateHitsErrorListB_false_of_mlValidListB :
    ∀ l : List ProfileTree, mlValidListB l = true →
      updateHitsErrorListB l = false
  | [] => by intro h; rfl
  | t :: ts => by
    intro h
    simp only [mlValidListB, Bool.and_eq_true] at h
    simp only [updateHitsErrorListB, Bool.or_eq_false_iff]
    exact ⟨updateHitsErrorB_false_of_mlValidB t h.1,
      updateHitsErrorListB_false_of_mlValidListB ts h.2⟩

end

/-- **C9.**  On well-formed trees the invariant "every non-composite
memoryless node's stats record is valid" is preserved by timer
registration (the registration transiently invalidates the leaf but
restores it before returning) and re-established by the update pass;
under the invariant, the update pass cannot reach the
"invalid profile statistics state" error branch of
`profileStats.update` on any node. -/
theorem memoryless_leaf_stays_valid :
    (∀ (dflt : String) (conds : List String) (p : ProfileTree)
        (smp : GoSample), wfB p = true → mlValidB p = true →
      mlValidB (registerTimerP dflt p conds smp) = true ∧
      wfB (registerTimerP dflt p conds smp) = true) ∧
    (∀ t t2 : ProfileTree, updateProfile t = some t2 → mlValidB t2 = true) ∧
    (∀ t : ProfileTree, mlValidB t = true → updateHitsErrorB t = false) := by
  refine ⟨?_, ?_, ?_⟩
  · intro dflt conds p smp h1 h2
    obtain ⟨hw, hm⟩ := registerTimerP_wf_mlValid dflt conds p smp h1 h2
    exact ⟨hm, hw⟩
  · intro t t2 h
    exact mlValidB_of_allValidB t2 (updateProfile_allValid t t2 h)
  · exact updateHitsErrorB_false_of_mlValidB

/-- Witness for `memoryless_leaf_stays_valid` on the concrete composite
`c1P0` (registration at path `["c"]`), a concrete memoryless leaf whose
update is computed on the spot, and the same leaf for the error-branch
conjunct. -/
theorem memoryless_leaf_stays_valid_spot :
    (wfB c1P0 = true ∧ mlValidB c1P0 = true ∧
      mlValidB (registerTimerP "base" c1P0 ["c"] ⟨0, 5⟩) = true ∧
      wfB (registerTimerP "base" c1P0 ["c"] ⟨0, 5⟩) = true) ∧
    (updateProfile
        (ProfileTree.node "e" false false 1 defaultBuilderCfg
          freshProfileStats []) =
      some (ProfileTree.node "e" false false 1 defaultBuilderCfg
        freshProfileStats []) ∧
      mlValidB (ProfileTree.node "e" false false 1 defaultBuilderCfg
        freshProfileStats []) = true) ∧
    (mlValidB (ProfileTree.node "e" false false 1 defaultBuilderCfg
        freshProfileStats []) = true ∧
      updateHitsErrorB (ProfileTree.node "e" false false 1 defaultBuilderCfg
        freshProfileStats []) = false) := by
  have hw : wfB c1P0 = true := by
    simp [c1P0, wfB, wfListB, makeCompositeNode, newProfileFromBuilder,
      ProfileTree.composite, ProfileTree.children, defaultBuilderCfg]
  have hm : mlValidB c1P0 = true := by
    simp [c1P0, mlValidB, mlValidListB, makeCompositeNode,
      newProfileFromBuilder, ProfileTree.composite, defaultBuilderCfg,
      freshProfileStats]
  have hup : updateProfile
      (ProfileTree.node "e" false false 1 defaultBuilderCfg
        freshProfileStats []) =
      some (ProfileTree.node "e" false false 1 defaultBuilderCfg
        freshProfileStats []) := by
    simp [updateProfile, updateChildren, freshProfileStats]
  have hml : mlValidB (ProfileTree.node "e" false false 1 defaultBuilderCfg
      freshProfileStats []) = true := by
    simp [mlValidB, mlValidListB, freshProfileStats]
  obtain ⟨a1, a2⟩ := memoryless_leaf_stays_valid.1 "base" ["c"] c1P0 ⟨0, 5⟩ hw hm
  exact ⟨⟨hw, hm, a1, a2⟩,
    ⟨hup, memoryless_leaf_stays_valid.2.1 _ _ hup⟩,
    ⟨hml, memoryless_leaf_stays_valid.2.2 _ hml⟩⟩

theorem copyStats_id (st : ProfileStats) : copyStats st = st := rfl

mutual

theorem copyTree_id : ∀ t : ProfileTree, copyTree t = t
  | .node n c m k b st ch => by
    cases c with
    | false => simp [copyTree, copyStats_id]
    | true => simp [copyTree, copyStats_id, copyTreeList_id ch]

theorem copyTreeList_id : ∀ l : List ProfileTree, copyTreeList l = l
  | [] => rfl
  | t :: ts => by simp [copyTreeList, copyTree_id t, copyTreeList_id ts]

end

theorem take_set_of_le {α : Type} (l : List α) (x : α) :
    ∀ i n, n ≤ i → (l.set i x).take n = l.take n := by
  induction l with
  | nil => intro i n h; simp
  | cons a l ih =>
    intro i n h
    cases n with
    | zero => simp
    | succ n =>
      cases i with
      | zero => omega
      | succ i => simp [List.set_cons_succ, List.take_succ_cons, ih i n (by omega)]

theorem take_succ_set_self {α : Type} (l : List α) (x : α) :
    ∀ i, i < l.length → (l.set i x).take (i + 1) = l.take i ++ [x] := by
  induction l with
  | nil => intro i h; simp at h
  | cons a l ih =>
    intro i h
    cases i with
    | zero => simp
    | succ i =>
      simp only [List.set_cons_succ, List.take_succ_cons, List.cons_append]
      rw [ih i (by simpa using h)]

theorem getD_set_self (l : List (List GoSample)) (i : Nat)
    (nb : List GoSample) (h : i < l.length) :
    (l.set i nb).getD i [] = nb := by
  induction l generalizing i with
  | nil => simp at h
  | cons a l ih =>
    cases i with
    | zero => rfl
    | succ i =>
      simp only [List.set_cons_succ]
      exact ih i (by simpa using h)

theorem getD_append_left (l l2 : List (List GoSample)) (i : Nat)
    (h : i < l.length) : (l ++ l2).getD i [] = l.getD i [] := by
  induction l generalizing i with
  | nil => simp at h
  | cons a l ih =>
    cases i with
    | zero => rfl
    | succ i =>
      simp only [List.cons_append]
      exact ih i (by simpa using h)

theorem getD_concat_self (l : List (List GoSample)) (nb : List GoSample) :
    (l ++ [nb]).getD l.length [] = nb := by
  induction l with
  | nil => rfl
  | cons a l ih => simpa using ih

theorem getD_of_ge (l : List (List GoSample)) (i : Nat) (h : l.length ≤ i) :
    l.getD i [] = [] := by
  induction l generalizing i with
  | nil => simp
  | cons a l ih =>
    cases i with
    | zero => simp at h
    | succ i => exact ih i (by simpa using h)

/-- **C10.**  The snapshot is isolated from the live tree.  The
recursive `copy` reproduces every observable field of every node
(`copyTree` is the identity on the functional state), and the only
mutable storage the snapshot shares with the live tree — the backing
array behind the `samples` slice header, which `profileStats.copy`
copies by value — is never mutated at an index a previously taken
header can see: Go's `append` either writes at index `len`, beyond
every cell the old header views, or allocates a fresh array, so the old
header's view is unchanged while the new header views the old samples
plus the appended one. -/
theorem snapshot_isolated :
    (∀ t : ProfileTree, copyTree t = t) ∧
    (∀ st : ProfileStats, copyStats st = st) ∧
    (∀ (h : SampleHeap) (s : GoSlice) (x : GoSample),
      s.arr < h.arrays.length →
      sliceView (goAppend h s x).1 s = sliceView h s) ∧
    (∀ (h : SampleHeap) (s : GoSlice) (x : GoSample),
      s.len ≤ (h.arrays.getD s.arr []).length →
      sliceView (goAppend h s x).1 (goAppend h s x).2 =
        sliceView h s ++ [x]) := by
  refine ⟨copyTree_id, copyStats_id, ?_, ?_⟩
  · intro h s x harr
    by_cases hlt : s.len < (h.arrays.getD s.arr []).length
    · simp only [goAppend, if_pos hlt, sliceView]
      rw [getD_set_self _ _ _ harr]
      exact take_set_of_le _ _ _ _ (Nat.le_refl s.len)
    · simp only [goAppend, if_neg hlt, sliceView]
      rw [getD_append_left _ _ _ harr]
  · intro h s x hlen
    by_cases hlt : s.len < (h.arrays.getD s.arr []).length
    · have harr : s.arr < h.arrays.length := by
        by_contra hge
        rw [getD_of_ge _ _ (by omega)] at hlt
        simp at hlt
      simp only [goAppend, if_pos hlt, sliceView]
      rw [getD_set_self _ _ _ harr]
      exact take_succ_set_self _ _ _ hlt
    · have hEq : s.len = (h.arrays.getD s.arr []).length := by omega
      simp only [goAppend, if_neg hlt, sliceView]
      rw [getD_concat_self]
      have hA : ((h.arrays.getD s.arr []).take s.len).length = s.len := by
        simp [hEq]
      rw [List.take_append_eq_append_take, List.take_append_eq_append_take]
      rw [List.getD_eq_getElem?_getD] at hEq
      simp [hA, List.take_of_length_le, ← hEq]

/-- Witness for `snapshot_isolated`: a heap with one backing array of
capacity 2 holding one live sample, appended in place. -/
theorem snapshot_isolated_spot :
    copyTree c1P0 = c1P0 ∧
    copyStats freshProfileStats = freshProfileStats ∧
    (({ arr := 0, len := 1 } : GoSlice).arr <
        ({ arrays := [[⟨0, 1⟩, ⟨0, 2⟩]] } : SampleHeap).arrays.length ∧
      sliceView (goAppend ⟨[[⟨0, 1⟩, ⟨0, 2⟩]]⟩ ⟨0, 1⟩ ⟨0, 9⟩).1 ⟨0, 1⟩ =
        sliceView ⟨[[⟨0, 1⟩, ⟨0, 2⟩]]⟩ ⟨0, 1⟩) ∧
    (({ arr := 0, len := 1 } : GoSlice).len ≤
        (({ arrays := [[⟨0, 1⟩, ⟨0, 2⟩]] } : SampleHeap).arrays.getD 0 []).length ∧
      sliceView (goAppend ⟨[[⟨0, 1⟩, ⟨0, 2⟩]]⟩ ⟨0, 1⟩ ⟨0, 9⟩).1
          (goAppend ⟨[[⟨0, 1⟩, ⟨0, 2⟩]]⟩ ⟨0, 1⟩ ⟨0, 9⟩).2 =
        sliceView ⟨[[⟨0, 1⟩, ⟨0, 2⟩]]⟩ ⟨0, 1⟩ ++ [⟨0, 9⟩]) :=
  ⟨snapshot_isolated.1 c1P0, snapshot_isolated.2.1 freshProfileStats,
    ⟨by decide, snapshot_isolated.2.2.1 _ _ _ (by decide)⟩,
    ⟨by decide, snapshot_isolated.2.2.2 _ _ _ (by decide)⟩⟩
